import Mathlib

/-!
Verification of the govinfo-tools harvesting pipeline core
(`tools/ginfo/ginfo.py`, `tools/ginfo/utils.py`) against its
natural-language specification.

The Python code is shallowly embedded: dates are modelled as day numbers
(`Nat`), file systems as lists of paths, the shared class-level
`download_errors` dict as an association list wrapped in `Option`
(`none` models Python `None`), Python exceptions as an `Except` monad,
and the worker pools as sequential folds (the spec's §5 treats the
error map as the only shared accumulator, keyed per case, so completion
order is irrelevant).
-/

namespace GovInfo

/-! ## §1 DateRangeSplitter — `utils.forward_range_spit` / `utils.backward_range_spit`

Dates are day numbers.  `range_days` is the window span in days
(`timedelta(days=range_days)`).  The Python generators are `while`
loops advancing one boundary; we embed them with an explicit fuel
argument that strictly dominates the number of iterations
(each iteration moves the boundary by `range_days + 1 ≥ 1` days),
so the definitions stay structurally recursive and kernel-computable. -/

/-- `forward_range_spit` loop body (utils.py lines 84-92):
`stop = end - range_; while start < stop: current = start + range_;
yield (start, current); start = current + 1`, then `yield (start, end)`. -/
def forwardAux (R : Nat) : Nat → Nat → Nat → List (Nat × Nat)
  | 0, start, fin => [(start, fin)]
  | fuel + 1, start, fin =>
    if start < fin - R then
      (start, start + R) :: forwardAux R fuel (start + R + 1) fin
    else
      [(start, fin)]

/-- `utils.forward_range_spit range_days start end`: ordered date windows
walking from `start` toward `end`. -/
def forward_range_spit (R start fin : Nat) : List (Nat × Nat) :=
  forwardAux R (fin + 1) start fin

/-- `backward_range_spit` loop body (utils.py lines 107-115):
`stop = start + range_; while end > stop: current = end - range_;
yield (current, end); end = current - 1`, then `yield (start, end)`. -/
def backwardAux (R : Nat) : Nat → Nat → Nat → List (Nat × Nat)
  | 0, start, fin => [(start, fin)]
  | fuel + 1, start, fin =>
    if start + R < fin then
      (fin - R, fin) :: backwardAux R fuel start (fin - R - 1)
    else
      [(start, fin)]

/-- `utils.backward_range_spit range_days start end`: reverse-ordered date
windows walking from `end` toward `start`. -/
def backward_range_spit (R start fin : Nat) : List (Nat × Nat) :=
  backwardAux R (fin + 1) start fin

/-! Structural facts about the forward splitter, proved for any
sufficient fuel (the wrapper supplies `fin + 1`, which suffices because
each iteration advances `start` by at least one day). -/

theorem forwardAux_length (R : Nat) :
    ∀ (fuel start fin : Nat), start ≤ fin → fin - start ≤ fuel →
      (forwardAux R fuel start fin).length = (fin - start + R + 1) / (R + 1) := by
  intro fuel
  induction fuel with
  | zero =>
    intro start fin h hf
    have h0 : fin - start = 0 := Nat.le_zero.mp hf
    simp only [forwardAux, List.length_singleton, h0, Nat.zero_add]
    rw [Nat.div_self (by omega)]
  | succ f ih =>
    intro start fin h hf
    by_cases hlt : start < fin - R
    · have h1 : start + R + 1 ≤ fin := by omega
      have h2 : fin - (start + R + 1) ≤ f := by omega
      simp only [forwardAux, if_pos hlt, List.length_cons, ih _ _ (by omega) h2]
      have hD : fin - (start + R + 1) + R + 1 = fin - start := by omega
      rw [hD, show fin - start + R + 1 = (fin - start) + (R + 1) by omega,
        Nat.add_div_right _ (by omega)]
    · simp only [forwardAux, if_neg hlt, List.length_singleton]
      rw [show fin - start + R + 1 = (fin - start) + (R + 1) by omega,
        Nat.add_div_right _ (by omega), Nat.div_eq_of_lt (by omega)]

theorem forwardAux_head (R : Nat) :
    ∀ (fuel start fin : Nat), ∃ e, (forwardAux R fuel start fin).head? = some (start, e) := by
  intro fuel start fin
  cases fuel with
  | zero => exact ⟨fin, rfl⟩
  | succ f =>
    by_cases hlt : start < fin - R
    · exact ⟨start + R, by simp [forwardAux, if_pos hlt]⟩
    · exact ⟨fin, by simp [forwardAux, if_neg hlt]⟩

theorem forwardAux_last (R : Nat) :
    ∀ (fuel start fin : Nat),
      ∃ s, (forwardAux R fuel start fin).getLast? = some (s, fin) := by
  intro fuel
  induction fuel with
  | zero => intro start fin; exact ⟨start, rfl⟩
  | succ f ih =>
    intro start fin
    by_cases hlt : start < fin - R
    · obtain ⟨s, hs⟩ := ih (start + R + 1) fin
      refine ⟨s, ?_⟩
      have hmem : (s, fin) ∈ (forwardAux R f (start + R + 1) fin).getLast? :=
        Option.mem_def.mpr hs
      simp only [forwardAux, if_pos hlt]
      exact Option.mem_def.mp (List.mem_getLast?_cons hmem)
    · exact ⟨start, by simp [forwardAux, if_neg hlt]⟩

theorem forwardAux_bounds (R : Nat) :
    ∀ (fuel start fin : Nat), start ≤ fin →
      ∀ w ∈ forwardAux R fuel start fin, start ≤ w.1 ∧ w.1 ≤ w.2 ∧ w.2 ≤ fin := by
  intro fuel
  induction fuel with
  | zero =>
    intro start fin h w hw
    simp [forwardAux] at hw
    subst hw; exact ⟨le_refl _, h, le_refl _⟩
  | succ f ih =>
    intro start fin h w hw
    by_cases hlt : start < fin - R
    · simp only [forwardAux, if_pos hlt, List.mem_cons] at hw
      rcases hw with hw | hw
      · subst hw
        refine ⟨le_refl _, by omega, by omega⟩
      · have h1 : start + R + 1 ≤ fin := by omega
        have := ih (start + R + 1) fin h1 w hw
        exact ⟨by omega, this.2.1, this.2.2⟩
    · simp [forwardAux, if_neg hlt] at hw
      subst hw; exact ⟨le_refl _, h, le_refl _⟩

theorem forwardAux_chain (R : Nat) :
    ∀ (fuel start fin : Nat),
      List.Chain' (fun a b : Nat × Nat => b.1 = a.2 + 1) (forwardAux R fuel start fin) := by
  intro fuel
  induction fuel with
  | zero => intro start fin; simp [forwardAux]
  | succ f ih =>
    intro start fin
    by_cases hlt : start < fin - R
    · simp only [forwardAux, if_pos hlt]
      refine List.chain'_cons'.mpr ⟨?_, ih (start + R + 1) fin⟩
      intro y hy
      obtain ⟨e, he⟩ := forwardAux_head R f (start + R + 1) fin
      rw [he] at hy
      cases hy
      rfl
    · simp [forwardAux, if_neg hlt]

theorem forwardAux_cover (R : Nat) :
    ∀ (fuel start fin : Nat), start ≤ fin → fin - start ≤ fuel →
      ∀ d, (start ≤ d ∧ d ≤ fin) ↔ ∃ w ∈ forwardAux R fuel start fin, w.1 ≤ d ∧ d ≤ w.2 := by
  intro fuel
  induction fuel with
  | zero =>
    intro start fin h hf d
    simp [forwardAux]
  | succ f ih =>
    intro start fin h hf d
    by_cases hlt : start < fin - R
    · have h1 : start + R + 1 ≤ fin := by omega
      have h2 : fin - (start + R + 1) ≤ f := by omega
      simp only [forwardAux, if_pos hlt, List.mem_cons]
      constructor
      · rintro ⟨hd1, hd2⟩
        by_cases hcase : d ≤ start + R
        · exact ⟨(start, start + R), Or.inl rfl, hd1, hcase⟩
        · obtain ⟨w, hw, hwd⟩ := ((ih (start + R + 1) fin h1 h2 d).mp ⟨by omega, hd2⟩)
          exact ⟨w, Or.inr hw, hwd⟩
      · rintro ⟨w, hw | hw, hwd⟩
        · subst hw; exact ⟨hwd.1, by omega⟩
        · have hb := forwardAux_bounds R f (start + R + 1) fin h1 w hw
          exact ⟨by omega, by omega⟩
    · simp only [forwardAux, if_neg hlt]
      constructor
      · rintro ⟨hd1, hd2⟩; exact ⟨(start, fin), List.mem_singleton.mpr rfl, hd1, hd2⟩
      · rintro ⟨w, hw, hwd⟩
        simp at hw
        subst hw
        exact hwd

theorem forwardAux_pairwise (R : Nat) :
    ∀ (fuel start fin : Nat), start ≤ fin →
      List.Pairwise (fun a b : Nat × Nat => a.2 < b.1) (forwardAux R fuel start fin) := by
  intro fuel
  induction fuel with
  | zero => intro start fin _; simp [forwardAux]
  | succ f ih =>
    intro start fin h
    by_cases hlt : start < fin - R
    · have h1 : start + R + 1 ≤ fin := by omega
      simp only [forwardAux, if_pos hlt]
      refine List.pairwise_cons.mpr ⟨?_, ih (start + R + 1) fin h1⟩
      intro w hw
      have := forwardAux_bounds R f (start + R + 1) fin h1 w hw
      omega
    · simp [forwardAux, if_neg hlt]

/-! Mirror-image facts for the backward splitter. -/

theorem backwardAux_length (R : Nat) :
    ∀ (fuel start fin : Nat), start ≤ fin → fin - start ≤ fuel →
      (backwardAux R fuel start fin).length = (fin - start + R + 1) / (R + 1) := by
  intro fuel
  induction fuel with
  | zero =>
    intro start fin h hf
    have h0 : fin - start = 0 := Nat.le_zero.mp hf
    simp only [backwardAux, List.length_singleton, h0, Nat.zero_add]
    rw [Nat.div_self (by omega)]
  | succ f ih =>
    intro start fin h hf
    by_cases hlt : start + R < fin
    · have h1 : start ≤ fin - R - 1 := by omega
      have h2 : (fin - R - 1) - start ≤ f := by omega
      simp only [backwardAux, if_pos hlt, List.length_cons, ih start _ h1 h2]
      rw [show fin - start + R + 1 = ((fin - R - 1) - start + R + 1) + (R + 1) by omega,
        Nat.add_div_right _ (by omega)]
    · simp only [backwardAux, if_neg hlt, List.length_singleton]
      rw [show fin - start + R + 1 = (fin - start) + (R + 1) by omega,
        Nat.add_div_right _ (by omega), Nat.div_eq_of_lt (by omega)]

theorem backwardAux_head (R : Nat) :
    ∀ (fuel start fin : Nat), ∃ s, (backwardAux R fuel start fin).head? = some (s, fin) := by
  intro fuel start fin
  cases fuel with
  | zero => exact ⟨start, rfl⟩
  | succ f =>
    by_cases hlt : start + R < fin
    · exact ⟨fin - R, by simp [backwardAux, if_pos hlt]⟩
    · exact ⟨start, by simp [backwardAux, if_neg hlt]⟩

theorem backwardAux_last (R : Nat) :
    ∀ (fuel start fin : Nat),
      ∃ e, (backwardAux R fuel start fin).getLast? = some (start, e) := by
  intro fuel
  induction fuel with
  | zero => intro start fin; exact ⟨fin, rfl⟩
  | succ f ih =>
    intro start fin
    by_cases hlt : start + R < fin
    · obtain ⟨e, he⟩ := ih start (fin - R - 1)
      refine ⟨e, ?_⟩
      have hmem : (start, e) ∈ (backwardAux R f start (fin - R - 1)).getLast? :=
        Option.mem_def.mpr he
      simp only [backwardAux, if_pos hlt]
      exact Option.mem_def.mp (List.mem_getLast?_cons hmem)
    · exact ⟨fin, by simp [backwardAux, if_neg hlt]⟩

theorem backwardAux_bounds (R : Nat) :
    ∀ (fuel start fin : Nat), start ≤ fin →
      ∀ w ∈ backwardAux R fuel start fin, start ≤ w.1 ∧ w.1 ≤ w.2 ∧ w.2 ≤ fin := by
  intro fuel
  induction fuel with
  | zero =>
    intro start fin h w hw
    simp [backwardAux] at hw
    subst hw; exact ⟨le_refl _, h, le_refl _⟩
  | succ f ih =>
    intro start fin h w hw
    by_cases hlt : start + R < fin
    · simp only [backwardAux, if_pos hlt, List.mem_cons] at hw
      rcases hw with hw | hw
      · subst hw
        refine ⟨by omega, by omega, le_refl _⟩
      · have h1 : start ≤ fin - R - 1 := by omega
        have := ih start (fin - R - 1) h1 w hw
        exact ⟨this.1, this.2.1, by omega⟩
    · simp [backwardAux, if_neg hlt] at hw
      subst hw; exact ⟨le_refl _, h, le_refl _⟩

theorem backwardAux_chain (R : Nat) :
    ∀ (fuel start fin : Nat),
      List.Chain' (fun a b : Nat × Nat => a.1 = b.2 + 1) (backwardAux R fuel start fin) := by
  intro fuel
  induction fuel with
  | zero => intro start fin; simp [backwardAux]
  | succ f ih =>
    intro start fin
    by_cases hlt : start + R < fin
    · simp only [backwardAux, if_pos hlt]
      refine List.chain'_cons'.mpr ⟨?_, ih start (fin - R - 1)⟩
      intro y hy
      obtain ⟨s, hs⟩ := backwardAux_head R f start (fin - R - 1)
      rw [hs] at hy
      cases hy
      simp
      omega
    · simp [backwardAux, if_neg hlt]

theorem backwardAux_cover (R : Nat) :
    ∀ (fuel start fin : Nat), start ≤ fin → fin - start ≤ fuel →
      ∀ d, (start ≤ d ∧ d ≤ fin) ↔ ∃ w ∈ backwardAux R fuel start fin, w.1 ≤ d ∧ d ≤ w.2 := by
  intro fuel
  induction fuel with
  | zero =>
    intro start fin h hf d
    simp [backwardAux]
  | succ f ih =>
    intro start fin h hf d
    by_cases hlt : start + R < fin
    · have h1 : start ≤ fin - R - 1 := by omega
      have h2 : (fin - R - 1) - start ≤ f := by omega
      simp only [backwardAux, if_pos hlt, List.mem_cons]
      constructor
      · rintro ⟨hd1, hd2⟩
        by_cases hcase : fin - R ≤ d
        · exact ⟨(fin - R, fin), Or.inl rfl, hcase, hd2⟩
        · obtain ⟨w, hw, hwd⟩ := ((ih start (fin - R - 1) h1 h2 d).mp ⟨hd1, by omega⟩)
          exact ⟨w, Or.inr hw, hwd⟩
      · rintro ⟨w, hw | hw, hwd⟩
        · subst hw; exact ⟨by omega, hwd.2⟩
        · have hb := backwardAux_bounds R f start (fin - R - 1) h1 w hw
          exact ⟨by omega, by omega⟩
    · simp only [backwardAux, if_neg hlt]
      constructor
      · rintro ⟨hd1, hd2⟩; exact ⟨(start, fin), List.mem_singleton.mpr rfl, hd1, hd2⟩
      · rintro ⟨w, hw, hwd⟩
        simp at hw
        subst hw
        exact hwd

theorem backwardAux_pairwise (R : Nat) :
    ∀ (fuel start fin : Nat), start ≤ fin →
      List.Pairwise (fun a b : Nat × Nat => b.2 < a.1) (backwardAux R fuel start fin) := by
  intro fuel
  induction fuel with
  | zero => intro start fin _; simp [backwardAux]
  | succ f ih =>
    intro start fin h
    by_cases hlt : start + R < fin
    · have h1 : start ≤ fin - R - 1 := by omega
      simp only [backwardAux, if_pos hlt]
      refine List.pairwise_cons.mpr ⟨?_, ih start (fin - R - 1) h1⟩
      intro w hw
      have := backwardAux_bounds R f start (fin - R - 1) h1 w hw
      omega
    · simp [backwardAux, if_neg hlt]

/-- The window-sequence properties claimed for the splitter, for one list of
windows running forward in time (`chainRel b.1 = a.2 + 1` makes consecutive
windows contiguous): first window starts at `start`, last ends at `fin`,
windows are contiguous, valid, pairwise disjoint, cover `[start, fin]`
exactly, and the count is `⌈(fin - start + 1) / (R + 1)⌉`
(written in `Nat` as `(fin - start + R + 1) / (R + 1)`). -/
def splitterSpecFwd (R start fin : Nat) (ws : List (Nat × Nat)) : Prop :=
  (∃ e, ws.head? = some (start, e)) ∧
  (∃ s, ws.getLast? = some (s, fin)) ∧
  List.Chain' (fun a b : Nat × Nat => b.1 = a.2 + 1) ws ∧
  (∀ w ∈ ws, w.1 ≤ w.2) ∧
  List.Pairwise (fun a b : Nat × Nat => a.2 < b.1) ws ∧
  (∀ d, (start ≤ d ∧ d ≤ fin) ↔ ∃ w ∈ ws, w.1 ≤ d ∧ d ≤ w.2) ∧
  ws.length = (fin - start + R + 1) / (R + 1)

/-- Same properties for the backward splitter, whose windows are emitted in
reverse-chronological order. -/
def splitterSpecBwd (R start fin : Nat) (ws : List (Nat × Nat)) : Prop :=
  (∃ s, ws.head? = some (s, fin)) ∧
  (∃ e, ws.getLast? = some (start, e)) ∧
  List.Chain' (fun a b : Nat × Nat => a.1 = b.2 + 1) ws ∧
  (∀ w ∈ ws, w.1 ≤ w.2) ∧
  List.Pairwise (fun a b : Nat × Nat => b.2 < a.1) ws ∧
  (∀ d, (start ≤ d ∧ d ≤ fin) ↔ ∃ w ∈ ws, w.1 ≤ d ∧ d ≤ w.2) ∧
  ws.length = (fin - start + R + 1) / (R + 1)

/-- C2 (counterexample): the claimed window count `⌈(end - start) / span⌉`
fails for `span = 10` over the 32-day interval `[0, 31]` — both splitters
emit 3 windows (each window spans `span + 1` calendar days inclusively),
while `⌈31 / 10⌉ = 4`. -/
theorem c2_range_splitter_count_counterexample :
    (forward_range_spit 10 0 31).length = 3 ∧
    (backward_range_spit 10 0 31).length = 3 ∧
    (31 - 0 + 10 - 1) / 10 = 4 := by
  decide

/-- C2 (amended): for every `(start, end, span)` with `start ≤ end`, the
windows produced by `forward_range_spit` / `backward_range_spit` are
contiguous, non-overlapping, cover `[start, end]` exactly, the final
(remainder) window is never empty, and the count is
`⌈(end - start + 1) / (span + 1)⌉` — not `⌈(end - start) / span⌉` as
claimed: each window spans `span + 1` calendar days inclusively because
the next window starts one day after the previous one ends. -/
theorem c2_range_splitter_windows (R start fin : Nat) (h : start ≤ fin) :
    splitterSpecFwd R start fin (forward_range_spit R start fin) ∧
    splitterSpecBwd R start fin (backward_range_spit R start fin) := by
  have hf : fin - start ≤ fin + 1 := by omega
  refine ⟨⟨?_, ?_, ?_, ?_, ?_, ?_, ?_⟩, ⟨?_, ?_, ?_, ?_, ?_, ?_, ?_⟩⟩
  · exact forwardAux_head R _ start fin
  · exact forwardAux_last R _ start fin
  · exact forwardAux_chain R _ start fin
  · intro w hw; exact (forwardAux_bounds R _ start fin h w hw).2.1
  · exact forwardAux_pairwise R _ start fin h
  · exact forwardAux_cover R _ start fin h hf
  · exact forwardAux_length R _ start fin h hf
  · exact backwardAux_head R _ start fin
  · exact backwardAux_last R _ start fin
  · exact backwardAux_chain R _ start fin
  · intro w hw; exact (backwardAux_bounds R _ start fin h w hw).2.1
  · exact backwardAux_pairwise R _ start fin h
  · exact backwardAux_cover R _ start fin h hf
  · exact backwardAux_length R _ start fin h hf

/-- C2 witness: the amended theorem applied at `span = 10`, `[0, 31]`. -/
theorem c2_range_splitter_windows_witness :
    0 ≤ 31 ∧
    splitterSpecFwd 10 0 31 (forward_range_spit 10 0 31) ∧
    splitterSpecBwd 10 0 31 (backward_range_spit 10 0 31) :=
  ⟨by decide, c2_range_splitter_windows 10 0 31 (by decide)⟩

/-! ## §2 Python strings

Python strings are modelled as character lists (`Str`), so that every
operation the embedded code performs on them is structurally recursive
and kernel-computable.  `str.split(sep)` and `str.replace(old, new)` are
implemented below with a fuel argument bounding the scan length (one
unit of fuel is consumed per character or per separator occurrence, so
`length + 1` always suffices); both are only ever used with non-empty
separators, exactly as in the source. -/

abbrev Str := List Char

/-- Coerce a Lean string literal into the model's string type. -/
def pyStr (s : String) : Str := s.data

/-- Scanner for `str.split(sep)` (non-empty `sep`). -/
def pySplitAux (sep : Str) : Nat → Str → Str → List Str
  | 0, s, acc => [acc.reverse ++ s]
  | fuel + 1, s, acc =>
    if sep ≠ [] ∧ sep.isPrefixOf s then
      acc.reverse :: pySplitAux sep fuel (s.drop sep.length) []
    else
      match s with
      | [] => [acc.reverse]
      | c :: rest => pySplitAux sep fuel rest (c :: acc)

/-- Python `s.split(sep)` for a non-empty separator: splits at every
occurrence, keeping empty fragments (`''.split(sep) == ['']`). -/
def pySplit (sep s : Str) : List Str := pySplitAux sep (s.length + 1) s []

/-- Scanner for `str.replace(old, new)` (non-empty `old`). -/
def pyReplaceAux (old new : Str) : Nat → Str → Str
  | 0, s => s
  | fuel + 1, s =>
    if old ≠ [] ∧ old.isPrefixOf s then
      new ++ pyReplaceAux old new fuel (s.drop old.length)
    else
      match s with
      | [] => []
      | c :: rest => c :: pyReplaceAux old new fuel rest

/-- Python `s.replace(old, new)` for a non-empty pattern: replaces every
occurrence, scanning left to right. -/
def pyReplace (old new s : Str) : Str := pyReplaceAux old new (s.length + 1) s

/-! ## §3 DetailFetcher — `Ginfo.download_details` / `Ginfo.parallel_download`
(ginfo.py lines 275-366)

The file system is the list of paths present on disk (directory creation
by `_create` is not modelled; written bodies are not retained since only
path existence is ever consulted).  The class-level `download_errors`
dict is an association list with unique keys wrapped in `Option` —
`none` models the Python `None` assigned at the end of a retry cycle.
`requests.get` is the oracle `fetch`; `calls` counts issued network
requests.  Python exceptions escaping `download_details` surface as
`Except.error`.  The worker pools are modelled as sequential folds: the
work units are independent and keyed per case id (spec §5), so
completion order is irrelevant. -/

/-- Python exceptions that the embedded code can raise. -/
inductive PyErr where
  | typeError
  | valueError
  | indexError
  | zeroDivisionError
  | attributeError
  | keyError (k : Str)
  deriving DecidableEq, Repr

/-- A failure detail stored in `download_errors`: the HTTP status for a
non-200 response, or the exception text for a transport error. -/
inductive Detail where
  | status (n : Nat)
  | exc (msg : Str)
  deriving DecidableEq, Repr

/-- Result of one `requests.get(url)` call. -/
inductive FetchRes where
  | resp (status : Nat) (body : Str)
  | fail (msg : Str)
  deriving DecidableEq, Repr

/-- Shared mutable state touched by the fetch stage. -/
structure DState where
  files : List Str
  errors : Option (List (Str × Detail))
  calls : Nat
  log : List (Str × Detail)
  deriving DecidableEq, Repr

deriving instance DecidableEq for Except

/-- `dict.pop(k, None)`: drop the entry for `k` (keys are unique). -/
def dictPop (m : List (Str × Detail)) (k : Str) : List (Str × Detail) :=
  m.filter (fun p => !(p.1 == k))

/-- `{**old, **{k: v}}`: update `k` in place if present, else append. -/
def dictSet (m : List (Str × Detail)) (k : Str) (v : Detail) :
    List (Str × Detail) :=
  if m.any (fun p => p.1 == k) then
    m.map (fun p => if p.1 == k then (k, v) else p)
  else m ++ [(k, v)]

/-- Configuration fields of a `Ginfo` instance used by the fetch stage. -/
structure GCfg where
  base_url : Str
  collection : Str
  json_details_folder : Str
  hash_filename : Str
  deriving DecidableEq, Repr

/-- Metadata URL (`base_url + f'metadata/granule/{case_id}/mods.xml'`). -/
def xmlUrl (cfg : GCfg) (case_id : Str) : Str :=
  cfg.base_url ++ pyStr "metadata/granule/" ++ case_id ++ pyStr "/mods.xml"

/-- PDF URL (`base_url + f'content/pkg/{package_id}/pdf/{granule_id}.pdf'`). -/
def pdfUrl (cfg : GCfg) (package_id granule_id : Str) : Str :=
  cfg.base_url ++ pyStr "content/pkg/" ++ package_id ++ pyStr "/pdf/" ++
    granule_id ++ pyStr ".pdf"

/-- `filename = granule_id.replace(f'{collection}-', '')`. -/
def detailFilename (cfg : GCfg) (granule_id : Str) : Str :=
  pyReplace (cfg.collection ++ pyStr "-") [] granule_id

/-- Target path `json_details_folder / granule_id.split('-')[1] /
hash_filename / ext / f'{filename}.{ext}'`; `none` models the
`IndexError` when the granule id contains no `-`. -/
def detailPath (cfg : GCfg) (granule_id ext : Str) : Option Str :=
  ((pySplit (pyStr "-") granule_id).get? 1).map fun court =>
    cfg.json_details_folder ++ pyStr "/" ++ court ++ pyStr "/" ++
      cfg.hash_filename ++ pyStr "/" ++ ext ++ pyStr "/" ++
      detailFilename cfg granule_id ++ pyStr "." ++ ext

/-- One iteration of the `for file_ext in ['xml', 'pdf']` loop of
`download_details` (ginfo.py lines 299-328): skip if the target file
exists, otherwise fetch; a 200 writes the body (and in retry mode pops
the case from the error map), anything else records a failure detail
which is then merged into the class-level map — a merge into `None`
raises `TypeError`.  A `pop` on `None` raises `AttributeError` inside
the `try`, so it is caught and recorded as the failure detail. -/
def downloadOne (cfg : GCfg) (fetch : Str → FetchRes)
    (case_id package_id granule_id ext : Str) (failed : Bool) (st : DState) :
    Except PyErr DState :=
  match detailPath cfg granule_id ext with
  | none => .error .indexError
  | some path =>
    let url := if ext = pyStr "xml" then xmlUrl cfg case_id
               else pdfUrl cfg package_id granule_id
    let out : DState × Option Detail :=
      if path ∈ st.files then (st, none)
      else
        match fetch url with
        | .resp status _ =>
          if status = 200 then
            let st' := { st with calls := st.calls + 1, files := path :: st.files }
            if failed then
              match st'.errors with
              | some m => ({ st' with errors := some (dictPop m case_id) }, none)
              | none => (st', some (.exc (pyStr "AttributeError")))
            else (st', none)
          else ({ st with calls := st.calls + 1 }, some (.status status))
        | .fail msg => ({ st with calls := st.calls + 1 }, some (.exc msg))
    match out with
    | (st1, some detail) =>
      match st1.errors with
      | none => .error .typeError
      | some m => .ok { st1 with errors := some (dictSet m case_id detail) }
    | (st1, none) => .ok st1

/-- `Ginfo.download_details(case_id, failed)` (ginfo.py lines 275-328):
split the case id into package and granule ids and process the two
artifact kinds in order.  An id without exactly one `/` makes the
list-unpacking raise `ValueError`; an empty id is skipped outright. -/
def download_details (cfg : GCfg) (fetch : Str → FetchRes) (case_id : Str)
    (failed : Bool) (st : DState) : Except PyErr DState :=
  if case_id = [] then .ok st
  else
    match pySplit (pyStr "/") case_id with
    | [package_id, granule_id] => do
      let st1 ← downloadOne cfg fetch case_id package_id granule_id (pyStr "xml") failed st
      downloadOne cfg fetch case_id package_id granule_id (pyStr "pdf") failed st1
    | _ => .error .valueError

/-- One pool pass of `parallel_download`, modelled as a sequential fold. -/
def runPass (cfg : GCfg) (fetch : Str → FetchRes) (failed : Bool) :
    List Str → DState → Except PyErr DState
  | [], st => .ok st
  | case_id :: rest, st => do
    runPass cfg fetch failed rest (← download_details cfg fetch case_id failed st)

/-- `Ginfo.parallel_download` (ginfo.py lines 330-366): a first pass over
all ids; if the error map is non-empty afterwards, a retry pass over
exactly the failed ids, then the remaining failures are appended to the
download log and the class-level map is assigned `None`. -/
def parallel_download (cfg : GCfg) (fetch : Str → FetchRes) (ids : List Str)
    (st : DState) : Except PyErr DState := do
  let st1 ← runPass cfg fetch false ids st
  match st1.errors with
  | none => .ok st1
  | some m =>
    if m.isEmpty then .ok st1
    else do
      let st2 ← runPass cfg fetch true (m.map Prod.fst) st1
      .ok { st2 with log := st2.log ++ (st2.errors.getD []), errors := none }

theorem ok_bind {ε α β : Type} (a : α) (f : α → Except ε β) :
    ((Except.ok a : Except ε α) >>= f) = f a := rfl

theorem error_bind {ε α β : Type} (e : ε) (f : α → Except ε β) :
    ((Except.error e : Except ε α) >>= f) = .error e := rfl

theorem ok_bind' {ε α β : Type} (a : α) (f : α → Except ε β) :
    (Except.ok a : Except ε α).bind f = f a := rfl

theorem error_bind' {ε α β : Type} (e : ε) (f : α → Except ε β) :
    (Except.error e : Except ε α).bind f = .error e := rfl

/-- C1: if both target files (metadata xml and pdf) of a case identifier
already exist on disk, `download_details` performs zero network calls
(`calls` unchanged — the whole state is returned untouched), treats the
case as success, leaves the shared error map unchanged, and running it
twice equals running it once. -/
theorem c1_detail_fetcher_skips_existing (cfg : GCfg) (fetch : Str → FetchRes)
    (case_id package_id granule_id : Str) (failed : Bool) (st : DState)
    (xmlP pdfP : Str)
    (hsplit : pySplit (pyStr "/") case_id = [package_id, granule_id])
    (hx : detailPath cfg granule_id (pyStr "xml") = some xmlP)
    (hp : detailPath cfg granule_id (pyStr "pdf") = some pdfP)
    (hxf : xmlP ∈ st.files) (hpf : pdfP ∈ st.files) :
    download_details cfg fetch case_id failed st = .ok st ∧
    (download_details cfg fetch case_id failed st).bind
      (download_details cfg fetch case_id failed) = .ok st := by
  have hne : case_id ≠ [] := by
    intro hc
    rw [hc] at hsplit
    have h1 : (pySplit (pyStr "/") []).length = 1 := by decide
    rw [hsplit] at h1
    simp at h1
  have hxml : downloadOne cfg fetch case_id package_id granule_id (pyStr "xml") failed st
      = .ok st := by
    simp [downloadOne, hx, hxf]
  have hpdf : downloadOne cfg fetch case_id package_id granule_id (pyStr "pdf") failed st
      = .ok st := by
    simp [downloadOne, hp, hpf]
  have h1 : download_details cfg fetch case_id failed st = .ok st := by
    simp only [download_details, if_neg hne, hsplit]
    rw [show (do
      let st1 ← downloadOne cfg fetch case_id package_id granule_id (pyStr "xml") failed st
      downloadOne cfg fetch case_id package_id granule_id (pyStr "pdf") failed st1) =
        (downloadOne cfg fetch case_id package_id granule_id (pyStr "xml") failed st).bind
          (fun st1 => downloadOne cfg fetch case_id package_id granule_id (pyStr "pdf") failed st1)
      from rfl, hxml]
    simpa using hpdf
  exact ⟨h1, by rw [h1]; simpa using h1⟩

/-- Concrete `Ginfo` configuration used by witnesses. -/
def cfgW : GCfg :=
  { base_url := pyStr "https://www.govinfo.gov/", collection := pyStr "USCOURTS",
    json_details_folder := pyStr "/d", hash_filename := pyStr "h" }

/-- A network oracle that always raises a transport error; witnesses use
it to show no network call is even attempted. -/
def fetchUnreachable : Str → FetchRes := fun _ => .fail (pyStr "unreachable")

/-- State whose file system already holds both targets of `PKG-1/PKG-1-1`. -/
def stBothW : DState :=
  { files := [pyStr "/d/1/h/xml/PKG-1-1.xml", pyStr "/d/1/h/pdf/PKG-1-1.pdf"],
    errors := some [], calls := 0, log := [] }

/-- C1 witness: the skip theorem at the concrete case `PKG-1/PKG-1-1`. -/
theorem c1_detail_fetcher_skips_existing_witness :
    download_details cfgW fetchUnreachable (pyStr "PKG-1/PKG-1-1") false stBothW
      = .ok stBothW ∧
    (download_details cfgW fetchUnreachable (pyStr "PKG-1/PKG-1-1") false stBothW).bind
      (download_details cfgW fetchUnreachable (pyStr "PKG-1/PKG-1-1") false)
      = .ok stBothW :=
  c1_detail_fetcher_skips_existing cfgW fetchUnreachable (pyStr "PKG-1/PKG-1-1")
    (pyStr "PKG-1") (pyStr "PKG-1-1") false stBothW
    (pyStr "/d/1/h/xml/PKG-1-1.xml") (pyStr "/d/1/h/pdf/PKG-1-1.pdf")
    (by decide) (by decide) (by decide) (by decide) (by decide)

/-- C10: (a) whenever the first pass of `parallel_download` left a
non-empty error map, the run terminates with the class-level map assigned
`None` (not an empty mapping); (b) consequently any later
`download_details` call whose metadata fetch yields a non-200 response or
a transport exception raises `TypeError` while merging the failure into
the `None` map instead of recording it. -/
theorem c10_error_map_set_to_none (cfg : GCfg) (fetch : Str → FetchRes) :
    (∀ (ids : List Str) (st st1 : DState) (m : List (Str × Detail)) (st' : DState),
      runPass cfg fetch false ids st = .ok st1 →
      st1.errors = some m → m ≠ [] →
      parallel_download cfg fetch ids st = .ok st' →
      st'.errors = none) ∧
    (∀ (case_id package_id granule_id : Str) (failed : Bool) (st : DState) (xmlP : Str),
      pySplit (pyStr "/") case_id = [package_id, granule_id] →
      detailPath cfg granule_id (pyStr "xml") = some xmlP →
      xmlP ∉ st.files →
      st.errors = none →
      (∀ body, fetch (xmlUrl cfg case_id) ≠ .resp 200 body) →
      download_details cfg fetch case_id failed st = .error .typeError) := by
  constructor
  · intro ids st st1 m st' hrun hm hne hpar
    have hemp : m.isEmpty = false := by
      cases m with
      | nil => exact absurd rfl hne
      | cons a l => rfl
    cases hr2 : runPass cfg fetch true (m.map Prod.fst) st1 with
    | error e =>
      have hcomp : parallel_download cfg fetch ids st = .error e := by
        simp [parallel_download, hrun, hm, hemp, hr2, ok_bind, error_bind, hne]
      rw [hcomp] at hpar
      exact absurd hpar (by simp)
    | ok st2 =>
      have hcomp : parallel_download cfg fetch ids st =
          .ok { st2 with log := st2.log ++ (st2.errors.getD []), errors := none } := by
        simp [parallel_download, hrun, hm, hemp, hr2, ok_bind, error_bind, hne]
      rw [hcomp] at hpar
      simp only [Except.ok.injEq] at hpar
      rw [← hpar]
  · intro case_id package_id granule_id failed st xmlP hsplit hx hnf hnone hfetch
    have hne : case_id ≠ [] := by
      intro hc
      rw [hc] at hsplit
      have h1 : (pySplit (pyStr "/") []).length = 1 := by decide
      rw [hsplit] at h1
      simp at h1
    have hxml : downloadOne cfg fetch case_id package_id granule_id (pyStr "xml") failed st
        = .error .typeError := by
      cases hf : fetch (xmlUrl cfg case_id) with
      | resp status body =>
        have hs : status ≠ 200 := by
          intro hc; subst hc; exact hfetch body hf
        simp [downloadOne, hx, hnf, hf, hs, hnone]
      | fail msg =>
        simp [downloadOne, hx, hnf, hf, hnone]
    simp only [download_details, if_neg hne, hsplit]
    rw [show (do
      let st1 ← downloadOne cfg fetch case_id package_id granule_id (pyStr "xml") failed st
      downloadOne cfg fetch case_id package_id granule_id (pyStr "pdf") failed st1) =
        (downloadOne cfg fetch case_id package_id granule_id (pyStr "xml") failed st).bind
          (fun st1 => downloadOne cfg fetch case_id package_id granule_id (pyStr "pdf") failed st1)
      from rfl, hxml, error_bind']

/-- Oracle returning HTTP 404 for every URL. -/
def fetchAll404 : Str → FetchRes := fun _ => .resp 404 []

/-- Fresh state: empty disk, empty (but not `None`) error map. -/
def stFreshW : DState := { files := [], errors := some [], calls := 0, log := [] }

/-- State with the error map already garbage-collected to `None`. -/
def stNoneW : DState := { files := [], errors := none, calls := 0, log := [] }

/-- C10 witness: a run over `PKG-1/PKG-1-1` in which every fetch 404s
leaves the map `None`, and a follow-up `download_details` call against
the `None` map raises `TypeError`. -/
theorem c10_error_map_set_to_none_witness :
    ({ files := [], errors := none, calls := 4,
       log := [(pyStr "PKG-1/PKG-1-1", Detail.status 404)] } : DState).errors = none ∧
    download_details cfgW fetchAll404 (pyStr "PKG-1/PKG-1-1") false stNoneW
      = .error .typeError := by
  constructor
  · exact (c10_error_map_set_to_none cfgW fetchAll404).1 [pyStr "PKG-1/PKG-1-1"]
      stFreshW
      { files := [], errors := some [(pyStr "PKG-1/PKG-1-1", Detail.status 404)],
        calls := 2, log := [] }
      [(pyStr "PKG-1/PKG-1-1", Detail.status 404)]
      { files := [], errors := none, calls := 4,
        log := [(pyStr "PKG-1/PKG-1-1", Detail.status 404)] }
      (by decide) (by decide) (by decide) (by decide)
  · exact (c10_error_map_set_to_none cfgW fetchAll404).2 (pyStr "PKG-1/PKG-1-1")
      (pyStr "PKG-1") (pyStr "PKG-1-1") false stNoneW (pyStr "/d/1/h/xml/PKG-1-1.xml")
      (by decide) (by decide) (by decide) (by decide)
      (by intro body; simp [fetchAll404])

theorem dictPop_keys {m : List (Str × Detail)} {k c : Str}
    (hk : k ∈ m.map Prod.fst) (hk' : k ∉ (dictPop m c).map Prod.fst) : k = c := by
  by_contra hne
  apply hk'
  obtain ⟨p, hp, hpk⟩ := List.mem_map.mp hk
  refine List.mem_map.mpr ⟨p, List.mem_filter.mpr ⟨hp, ?_⟩, hpk⟩
  simp [hpk, hne]

theorem dictSet_keys {m : List (Str × Detail)} {k c : Str} {v : Detail}
    (hk : k ∈ m.map Prod.fst) : k ∈ (dictSet m c v).map Prod.fst := by
  rw [dictSet]
  split
  · obtain ⟨p, hp, hpk⟩ := List.mem_map.mp hk
    refine List.mem_map.mpr ?_
    by_cases hpc : p.1 = c
    · exact ⟨(c, v), List.mem_map.mpr ⟨p, hp, by simp [hpc]⟩, by simp [← hpc, hpk]⟩
    · exact ⟨p, List.mem_map.mpr ⟨p, hp, by simp [hpc]⟩, hpk⟩
  · rw [List.map_append]
    exact List.mem_append_left _ hk

/-- Behaviour of one `download_details` file iteration when it returns
normally and the shared error map is a dict (not `None`): the map stays a
dict, the file system only grows, and a key can disappear from the map
only in retry mode after a 200 response whose body was written. -/
theorem downloadOne_ok_spec {cfg : GCfg} {fetch : Str → FetchRes}
    {case_id package_id granule_id ext : Str} {failed : Bool} {st st' : DState}
    {m : List (Str × Detail)}
    (h : downloadOne cfg fetch case_id package_id granule_id ext failed st = .ok st')
    (hm : st.errors = some m) :
    ∃ m', st'.errors = some m' ∧
      (∀ p ∈ st.files, p ∈ st'.files) ∧
      (∀ k, k ∈ m.map Prod.fst → k ∉ m'.map Prod.fst →
        failed = true ∧ k = case_id ∧
        (∃ p, p ∈ st'.files ∧ p ∉ st.files) ∧
        (∃ url body, fetch url = .resp 200 body)) := by
  cases hdp : detailPath cfg granule_id ext with
  | none =>
    rw [downloadOne, hdp] at h
    exact absurd h (by simp)
  | some path =>
    by_cases hpf : path ∈ st.files
    · have h' : st' = st := by
        rw [downloadOne, hdp] at h
        simp only [if_pos hpf] at h
        exact (Except.ok.inj h).symm
      subst h'
      exact ⟨m, hm, fun p hp => hp, fun k hk hk' => absurd hk hk'⟩
    · cases hfr : fetch (if ext = pyStr "xml" then xmlUrl cfg case_id
        else pdfUrl cfg package_id granule_id) with
      | resp status body =>
        by_cases hs : status = 200
        · subst hs
          cases failed with
          | true =>
            have h' : st' = { st with calls := st.calls + 1, files := path :: st.files, errors := some (dictPop m case_id) } := by
              rw [downloadOne, hdp] at h
              simp only [if_neg hpf, hfr, if_pos rfl, hm] at h
              exact (Except.ok.inj h).symm
            subst h'
            refine ⟨dictPop m case_id, rfl, ?_, ?_⟩
            · intro p hp
              exact List.mem_cons_of_mem _ hp
            · intro k hk hk'
              refine ⟨rfl, dictPop_keys hk hk', ⟨path, List.mem_cons_self _ _, hpf⟩, ?_⟩
              exact ⟨_, body, hfr⟩
          | false =>
            have h' : st' = { st with calls := st.calls + 1, files := path :: st.files } := by
              rw [downloadOne, hdp] at h
              simp only [if_neg hpf, hfr, if_pos rfl] at h
              exact (Except.ok.inj h).symm
            subst h'
            refine ⟨m, hm, ?_, ?_⟩
            · intro p hp
              exact List.mem_cons_of_mem _ hp
            · intro k hk hk'
              exact absurd hk hk'
        · have h' : st' = { st with calls := st.calls + 1, errors := some (dictSet m case_id (.status status)) } := by
            rw [downloadOne, hdp] at h
            simp only [if_neg hpf, hfr, if_neg hs, hm] at h
            exact (Except.ok.inj h).symm
          subst h'
          refine ⟨dictSet m case_id (.status status), rfl, fun p hp => hp, ?_⟩
          intro k hk hk'
          exact absurd (dictSet_keys hk) hk'
      | fail msg =>
        have h' : st' = { st with calls := st.calls + 1, errors := some (dictSet m case_id (.exc msg)) } := by
          rw [downloadOne, hdp] at h
          simp only [if_neg hpf, hfr, hm] at h
          exact (Except.ok.inj h).symm
        subst h'
        refine ⟨dictSet m case_id (.exc msg), rfl, fun p hp => hp, ?_⟩
        intro k hk hk'
        exact absurd (dictSet_keys hk) hk'

/-- Oracle used by the C4 scenario: the metadata fetch for
`PKG-1/PKG-1-1` returns HTTP 404, every other URL succeeds. -/
def fetchXml404 : Str → FetchRes := fun url =>
  if url = xmlUrl cfgW (pyStr "PKG-1/PKG-1-1") then .resp 404 [] else .resp 200 (pyStr "x")

/-- Oracle for the retry pass: every URL succeeds. -/
def fetchAllOK : Str → FetchRes := fun _ => .resp 200 (pyStr "x")

/-- State after the first pass of the C4 scenario: the pdf was written,
the error map holds exactly the 404 entry. -/
def st404W : DState :=
  { files := [pyStr "/d/1/h/pdf/PKG-1-1.pdf"],
    errors := some [(pyStr "PKG-1/PKG-1-1", .status 404)], calls := 2, log := [] }

/-- State after the successful retry of the C4 scenario: both files on
disk, error map empty. -/
def stDoneW : DState :=
  { files := [pyStr "/d/1/h/xml/PKG-1-1.xml", pyStr "/d/1/h/pdf/PKG-1-1.pdf"],
    errors := some [], calls := 3, log := [] }

/-- C4: for the single identifier `PKG-1/PKG-1-1` whose metadata fetch
returns HTTP 404, after the first pass the error map holds exactly
`{PKG-1/PKG-1-1: 404}`, and after a retry pass in which the fetch
succeeds it is empty; moreover — in general — an entry leaves the map on
a normally-returning `download_details` call only in retry mode, only
for that call's own identifier, and only alongside a 200 response whose
body was written to a fresh path. -/
theorem c4_error_map_remove_on_retry :
    (download_details cfgW fetchXml404 (pyStr "PKG-1/PKG-1-1") false stFreshW
        = .ok st404W ∧
      st404W.errors = some [(pyStr "PKG-1/PKG-1-1", .status 404)] ∧
      download_details cfgW fetchAllOK (pyStr "PKG-1/PKG-1-1") true st404W
        = .ok stDoneW ∧
      stDoneW.errors = some []) ∧
    (∀ (cfg : GCfg) (fetch : Str → FetchRes) (case_id : Str) (failed : Bool)
        (st st' : DState) (m m' : List (Str × Detail)) (k : Str),
      download_details cfg fetch case_id failed st = .ok st' →
      st.errors = some m → st'.errors = some m' →
      k ∈ m.map Prod.fst → k ∉ m'.map Prod.fst →
      failed = true ∧ k = case_id ∧
        (∃ p, p ∈ st'.files ∧ p ∉ st.files) ∧
        (∃ url body, fetch url = .resp 200 body)) := by
  constructor
  · exact ⟨by decide, by decide, by decide, by decide⟩
  · intro cfg fetch case_id failed st st' m m' k hdd hm hm' hk hk'
    rw [download_details] at hdd
    by_cases hce : case_id = []
    · rw [if_pos hce] at hdd
      have hst : st = st' := Except.ok.inj hdd
      rw [← hst, hm] at hm'
      exact absurd (Option.some.inj hm' ▸ hk) hk'
    · rw [if_neg hce] at hdd
      rcases hsp : pySplit (pyStr "/") case_id with _ | ⟨a, _ | ⟨b, _ | ⟨c, t⟩⟩⟩
      · rw [hsp] at hdd; exact absurd hdd (by simp)
      · rw [hsp] at hdd; exact absurd hdd (by simp)
      · rw [hsp] at hdd
        simp only [] at hdd
        cases hx1 : downloadOne cfg fetch case_id a b (pyStr "xml") failed st with
        | error e =>
          rw [show (do
            let st1 ← downloadOne cfg fetch case_id a b (pyStr "xml") failed st
            downloadOne cfg fetch case_id a b (pyStr "pdf") failed st1) =
              (downloadOne cfg fetch case_id a b (pyStr "xml") failed st).bind
                (fun st1 => downloadOne cfg fetch case_id a b (pyStr "pdf") failed st1)
            from rfl, hx1, error_bind'] at hdd
          exact absurd hdd (by simp)
        | ok st1 =>
          rw [show (do
            let st1 ← downloadOne cfg fetch case_id a b (pyStr "xml") failed st
            downloadOne cfg fetch case_id a b (pyStr "pdf") failed st1) =
              (downloadOne cfg fetch case_id a b (pyStr "xml") failed st).bind
                (fun st1 => downloadOne cfg fetch case_id a b (pyStr "pdf") failed st1)
            from rfl, hx1, ok_bind'] at hdd
          obtain ⟨m1, hm1, mono1, rem1⟩ := downloadOne_ok_spec hx1 hm
          obtain ⟨m2, hm2, mono2, rem2⟩ := downloadOne_ok_spec hdd hm1
          have hm2' : m2 = m' := by
            rw [hm'] at hm2
            exact (Option.some.inj hm2).symm
          by_cases hk1 : k ∈ m1.map Prod.fst
          · obtain ⟨hfail, hkc, ⟨p, hp', hp1⟩, hfetch⟩ := rem2 k hk1 (hm2' ▸ hk')
            refine ⟨hfail, hkc, ⟨p, hp', fun hp0 => hp1 (mono1 p hp0)⟩, hfetch⟩
          · obtain ⟨hfail, hkc, ⟨p, hp1, hp0⟩, hfetch⟩ := rem1 k hk hk1
            exact ⟨hfail, hkc, ⟨p, mono2 p hp1, hp0⟩, hfetch⟩
      · rw [hsp] at hdd; exact absurd hdd (by simp)

/-- C4 witness: the general removal clause applied to the scenario's
retry step. -/
theorem c4_error_map_remove_on_retry_witness :
    true = true ∧ pyStr "PKG-1/PKG-1-1" = pyStr "PKG-1/PKG-1-1" ∧
      (∃ p, p ∈ stDoneW.files ∧ p ∉ st404W.files) ∧
      (∃ url body, fetchAllOK url = .resp 200 body) :=
  c4_error_map_remove_on_retry.2 cfgW fetchAllOK (pyStr "PKG-1/PKG-1-1") true
    st404W stDoneW [(pyStr "PKG-1/PKG-1-1", .status 404)] [] (pyStr "PKG-1/PKG-1-1")
    (by decide) (by decide) (by decide) (by decide) (by decide)

/-! ## §4 Regular expressions — `header_remove` / `check_ocr`
(ginfo.py lines 528-571)

A small backtracking regex engine over `Str`, sufficient for the two
patterns the code uses.  `mEngF` is a continuation-passing matcher whose
preference order reproduces the Python `re` backtracking order: lazy
stars try the continuation first, greedy stars try the body first,
alternation tries the left branch first; a lookahead runs its body
without consuming input.  It returns the remaining suffix after the
match.  The fuel argument bounds the recursion depth (it is not
decremented across continuation calls, so the depth of one backtracking
path is about `input length + pattern size`; the wrapper passes
`(length + 1) * (size + 2)`, far more than any path can use).  The star
bodies in both patterns consume at least one character per iteration, so
the fuel never changes the computed answer on the wrapper's calls. -/

/-- Regex abstract syntax: character test, concatenation, alternation
(left preferred), lookahead, lazy star and greedy star. -/
inductive RE where
  | eps
  | chr (p : Char → Bool)
  | cat (a b : RE)
  | alt (a b : RE)
  | look (a : RE)
  | starL (a : RE)
  | starG (a : RE)

/-- Node count, used only to size the fuel. -/
def reSize : RE → Nat
  | .eps => 1
  | .chr _ => 1
  | .cat a b => reSize a + reSize b + 1
  | .alt a b => reSize a + reSize b + 1
  | .look a => reSize a + 1
  | .starL a => reSize a + 1
  | .starG a => reSize a + 1

/-- The backtracking matcher.  `k` receives the suffix left after the
part matched so far; the result is the suffix after the full match of
the first (in preference order) way to match, or `none`. -/
def mEngF : Nat → RE → Str → (Str → Option Str) → Option Str
  | 0, _, _, _ => none
  | _ + 1, .eps, s, k => k s
  | _ + 1, .chr _, [], _ => none
  | _ + 1, .chr p, c :: s, k => if p c then k s else none
  | f + 1, .cat a b, s, k => mEngF f a s (fun t => mEngF f b t k)
  | f + 1, .alt a b, s, k => (mEngF f a s k).orElse (fun _ => mEngF f b s k)
  | f + 1, .look a, s, k =>
    match mEngF f a s some with
    | some _ => k s
    | none => none
  | f + 1, .starL a, s, k =>
    (k s).orElse (fun _ => mEngF f a s (fun t => mEngF f (.starL a) t k))
  | f + 1, .starG a, s, k =>
    (mEngF f a s (fun t => mEngF f (.starG a) t k)).orElse (fun _ => k s)

/-- `.` — any character except a newline. -/
def reDot : RE := .chr (fun c => c != '\n')

/-- Greedy `x?`. -/
def reOpt (a : RE) : RE := .alt a .eps

/-- A literal string, e.g. the interpolated citation (the citations the
data carries contain no regex metacharacters, so the interpolation is a
literal match). -/
def reLit : Str → RE
  | [] => .eps
  | c :: cs => .cat (.chr (fun d => d == c)) (reLit cs)

/-- `\d{1,2}` (greedy). -/
def reD12 : RE := .cat (.chr Char.isDigit) (reOpt (.chr Char.isDigit))

/-- `\d{2,4}` (greedy). -/
def reD24 : RE :=
  .cat (.chr Char.isDigit) (.cat (.chr Char.isDigit)
    (reOpt (.cat (.chr Char.isDigit) (reOpt (.chr Char.isDigit)))))

/-- `\d{1,2}/\d{1,2}/\d{2,4}` — the date-like token. -/
def reDate : RE :=
  .cat reD12 (.cat (.chr (fun c => c == '/')) (.cat reD12 (.cat (.chr (fun c => c == '/')) reD24)))

/-- `<?[Pp]a?ge?` — the page-number marker. -/
def rePage : RE :=
  .cat (reOpt (.chr (fun c => c == '<')))
    (.cat (.chr (fun c => c == 'P' || c == 'p'))
      (.cat (reOpt (.chr (fun c => c == 'a')))
        (.cat (.chr (fun c => c == 'g')) (reOpt (.chr (fun c => c == 'e'))))))

/-- The header pattern of `Ginfo.header_remove` (ginfo.py lines 540-541):
`.*?(?=CIT).*?(?=\d{1,2}/\d{1,2}/\d{2,4}).*(?:\n.*)?(?:(?=<?[Pp]a?ge?).*)`
with the citation interpolated as `CIT`. -/
def headerRE (cit : Str) : RE :=
  .cat (.starL reDot)
    (.cat (.look (reLit cit))
      (.cat (.starL reDot)
        (.cat (.look reDate)
          (.cat (.starG reDot)
            (.cat (reOpt (.cat (.chr (fun c => c == '\n')) (.starG reDot)))
              (.cat (.look rePage) (.starG reDot)))))))

/-- `re.sub(r, '', s)` scanner: at each position try a match; a
non-empty match is deleted and scanning resumes after it, otherwise the
character is kept and scanning advances one position.  One unit of outer
fuel is consumed per position, so `length + 1` suffices. -/
def reSubAux (r : RE) : Nat → Str → Str
  | 0, s => s
  | f + 1, s =>
    match mEngF ((s.length + 1) * (reSize r + 2)) r s some with
    | some rem =>
      if rem.length < s.length then reSubAux r f rem
      else
        match s with
        | [] => []
        | c :: t => c :: reSubAux r f t
    | none =>
      match s with
      | [] => []
      | c :: t => c :: reSubAux r f t

/-- `re.sub(r, '', s)`. -/
def reSub (r : RE) (s : Str) : Str := reSubAux r (s.length + 1) s

/-- `Ginfo.header_remove(string, citation)` (ginfo.py lines 528-543). -/
def header_remove (string citation : Str) : Str :=
  reSub (headerRE citation) string

/-- The citation derivation of `Ginfo.check_ocr` (ginfo.py lines 557-562):
`Appellate`/`Bankruptcy` take the text after the last `;` of the
preferred citation, `District` the text before the first `;`, any other
court type leaves the citation empty. -/
def citeOf (court_type preferred_citation : Str) : Str :=
  let c1 : Str :=
    if court_type = pyStr "Appellate" ∨ court_type = pyStr "Bankruptcy" then
      (pySplit (pyStr ";") preferred_citation).getLastD []
    else []
  if court_type = pyStr "District" then
    (pySplit (pyStr ";") preferred_citation).headD []
  else c1

/-- `\w` (ASCII model: letters, digits, underscore). -/
def isWordChar (c : Char) : Bool := c.isAlphanum || c == '_'

/-- Scanner for `re.sub(r'\W+', ' ', text)`: collapse every maximal
non-word run to a single space. -/
def collapseNonWordAux : Nat → Str → Str
  | 0, s => s
  | _ + 1, [] => []
  | f + 1, c :: rest =>
    if isWordChar c then c :: collapseNonWordAux f rest
    else ' ' :: collapseNonWordAux f (rest.dropWhile (fun d => !(isWordChar d)))

/-- `re.sub(r'\W+', ' ', text)`. -/
def collapseNonWord (s : Str) : Str := collapseNonWordAux (s.length + 1) s

/-- `Ginfo.check_ocr(text, court_type, preferred_citation)` (ginfo.py
lines 545-571): derive the citation, strip headers, then count the
non-empty tokens among the first 60 space-separated fragments; more than
50 means native text (returned as-is), otherwise the text is discarded
and the document flagged for OCR. -/
def check_ocr (text court_type preferred_citation : Str) : Str × Bool × Str :=
  let citation := citeOf court_type preferred_citation
  let stripped := header_remove text citation
  let words := ((pySplit (pyStr " ") (collapseNonWord stripped)).take 60).filter
    (fun w => w ≠ [])
  if 50 < words.length then (stripped, false, citation)
  else ([], true, citation)

/-- C3: `check_ocr` collapses non-word runs to single spaces, takes the
leading 60 space-separated tokens, drops empty ones, and: with more than
50 tokens left it returns `ocr = false` with `plain_text` exactly the
header-stripped input; with 50 or fewer it returns `ocr = true` with
`plain_text` empty (the native extraction is discarded). -/
theorem c3_check_ocr_decision (text court_type preferred_citation : Str) :
    (50 < (((pySplit (pyStr " ") (collapseNonWord
        (header_remove text (citeOf court_type preferred_citation)))).take 60).filter
        (fun w => w ≠ [])).length →
      check_ocr text court_type preferred_citation =
        (header_remove text (citeOf court_type preferred_citation), false,
         citeOf court_type preferred_citation)) ∧
    ((((pySplit (pyStr " ") (collapseNonWord
        (header_remove text (citeOf court_type preferred_citation)))).take 60).filter
        (fun w => w ≠ [])).length ≤ 50 →
      check_ocr text court_type preferred_citation =
        ([], true, citeOf court_type preferred_citation)) := by
  constructor
  · intro h
    simp only [check_ocr, if_pos h]
  · intro h
    simp only [check_ocr, if_neg (Nat.not_lt.mpr h)]

/-- 51 one-letter tokens: a text that survives the OCR heuristic. -/
def textNativeW : Str := pyStr
  "a a a a a a a a a a a a a a a a a a a a a a a a a a a a a a a a a a a a a a a a a a a a a a a a a a a"

set_option maxHeartbeats 4000000 in
/-- C3 witness: both branches of the decision procedure at concrete
inputs — a District case whose citation `Q` never occurs in a 51-token
text (native, text kept verbatim), and a one-token text (flagged OCR,
text discarded). -/
theorem c3_check_ocr_decision_witness :
    check_ocr textNativeW (pyStr "District") (pyStr "Q;x")
      = (header_remove textNativeW (citeOf (pyStr "District") (pyStr "Q;x")), false,
         citeOf (pyStr "District") (pyStr "Q;x")) ∧
    check_ocr (pyStr "x") [] [] = ([], true, citeOf [] []) :=
  ⟨(c3_check_ocr_decision textNativeW (pyStr "District") (pyStr "Q;x")).1 (by decide),
   (c3_check_ocr_decision (pyStr "x") [] []).2 (by decide)⟩

/-! No-match lemmas for the header pattern: if the citation never occurs
in the remaining text, the pattern cannot match anywhere, at any fuel. -/

theorem reLit_none : ∀ (cit : Str) (f : Nat) (s : Str) (k : Str → Option Str),
    ¬ cit <+: s → mEngF f (reLit cit) s k = none := by
  intro cit
  induction cit with
  | nil => intro f s k h; exact absurd List.nil_prefix h
  | cons c cs ih =>
    intro f s k h
    cases f with
    | zero => rfl
    | succ f =>
      simp only [reLit, mEngF]
      cases s with
      | nil => cases f with | zero => rfl | succ g => rfl
      | cons d t =>
        cases f with
        | zero => rfl
        | succ g =>
          simp only [mEngF]
          by_cases hdc : d = c
          · subst hdc
            simp only [beq_self_eq_true, if_pos]
            exact ih (g + 1) t k (fun hp => h (List.cons_prefix_cons.mpr ⟨rfl, hp⟩))
          · have : (d == c) = false := beq_eq_false_iff_ne.mpr hdc
            simp [this]

theorem starL_chr_none : ∀ (p : Char → Bool) (f : Nat) (s : Str) (k : Str → Option Str),
    (∀ s', s' <:+ s → k s' = none) → mEngF f (.starL (.chr p)) s k = none := by
  intro p f
  induction f with
  | zero => intro s k h; rfl
  | succ f ih =>
    intro s k h
    simp only [mEngF]
    rw [h s (List.suffix_refl s)]
    cases s with
    | nil =>
      cases f with
      | zero => rfl
      | succ g => rfl
    | cons c t =>
      cases f with
      | zero => rfl
      | succ g =>
        simp only [mEngF, Option.orElse]
        by_cases hpc : p c = true
        · rw [if_pos hpc]
          exact ih t k (fun s' hs' => h s' (hs'.trans (List.suffix_cons c t)))
        · rw [if_neg hpc]

theorem headerRE_none (cit : Str) (f : Nat) (s : Str) (k : Str → Option Str)
    (h : ∀ s', s' <:+ s → ¬ cit <+: s') : mEngF f (headerRE cit) s k = none := by
  cases f with
  | zero => rfl
  | succ f =>
    simp only [headerRE, reDot, mEngF]
    apply starL_chr_none
    intro s' hs'
    cases f with
    | zero => rfl
    | succ g =>
      simp only [mEngF]
      cases g with
      | zero => rfl
      | succ g2 =>
        simp only [mEngF]
        rw [reLit_none cit g2 s' some (h s' hs')]

theorem reSubAux_headerRE_id : ∀ (cit : Str) (f : Nat) (s : Str),
    (∀ s', s' <:+ s → ¬ cit <+: s') → reSubAux (headerRE cit) f s = s := by
  intro cit f
  induction f with
  | zero => intro s h; rfl
  | succ f ih =>
    intro s h
    simp only [reSubAux]
    rw [headerRE_none cit _ s some h]
    cases s with
    | nil => rfl
    | cons c t =>
      simp only [List.cons.injEq, true_and]
      exact ih t (fun s' hs' => h s' (hs'.trans (List.suffix_cons c t)))

/-- C7 (counterexample): for a court type other than Appellate,
Bankruptcy and District the derived citation is the empty string, yet
stripping still occurs — the empty-citation lookahead succeeds
everywhere, so any line holding a date token later followed by a page
marker is deleted: `header_remove('1/1/11 Page', '') = ''`. -/
theorem c7_empty_citation_strips_counterexample :
    citeOf (pyStr "Supreme") (pyStr "1:06-cv-00007;06-007") = [] ∧
    header_remove (pyStr "1/1/11 Page") [] = [] ∧
    (pyStr "1/1/11 Page" : Str) ≠ [] :=
  ⟨by decide, by decide, by decide⟩

/-- C7 (amended): `header_remove` is the identity on any text in which
the derived citation does not occur as a substring; for court types
other than Appellate, Bankruptcy and District the derived citation is
the empty string — but then stripping can still occur, because the empty
citation occurs in every text (the original "no stripping takes place"
clause is refuted by the counterexample). -/
theorem c7_header_remove_noop :
    (∀ (text citation : Str), ¬ citation <:+: text → header_remove text citation = text) ∧
    (∀ (court_type preferred_citation : Str),
      court_type ≠ pyStr "Appellate" → court_type ≠ pyStr "Bankruptcy" →
      court_type ≠ pyStr "District" → citeOf court_type preferred_citation = []) := by
  constructor
  · intro text cit hinf
    have h : ∀ s', s' <:+ text → ¬ cit <+: s' := by
      intro s' hs' hp
      exact hinf (List.infix_iff_prefix_suffix.mpr ⟨s', hp, hs'⟩)
    exact reSubAux_headerRE_id cit _ text h
  · intro ct pc h1 h2 h3
    simp [citeOf, h1, h2, h3]

/-- C7 witness: the no-op clause at a text free of the citation `Z`, and
the empty-citation clause at court type `Supreme`. -/
theorem c7_header_remove_noop_witness :
    header_remove (pyStr "hello world") (pyStr "Z") = pyStr "hello world" ∧
    citeOf (pyStr "Supreme") (pyStr "1:06;07") = [] :=
  ⟨c7_header_remove_noop.1 (pyStr "hello world") (pyStr "Z") (by decide),
   c7_header_remove_noop.2 (pyStr "Supreme") (pyStr "1:06;07")
     (by decide) (by decide) (by decide)⟩

/-! ## §5 ResultScraper — `Ginfo.scrape_details` (ginfo.py lines 181-227)

The rendering collaborator (selenium + BeautifulSoup parsing) is the
oracle `render`, returning for each page offset the parsed artifacts the
code reads off the realized page: the `recordCountId` text (if the
element is present), the pagination text of the element preceding the
`next` control (if a `next` control is present), and the extracted share
links.  `str(int)` is modelled by the decimal renderer `decStr`, and
Python 3 true division `10000 / page_size` by an exact fraction marker
`PyNum.pyfloat` — `range` rejects it with `TypeError`. -/

/-- One share link (`find_link` output: `num`, `name`, `url`). -/
structure LinkAttr where
  num : Str
  name : Str
  url : Str
  deriving DecidableEq, Repr

/-- What `scrape_details` reads off one rendered page. -/
structure PageView where
  recordCountText : Option Str
  lastPageText : Option Str
  links : List LinkAttr

/-- Decimal digit character. -/
def decDigit (n : Nat) : Char := Char.ofNat (48 + n)

/-- Scanner for `str(n)` (one unit of fuel per digit). -/
def decStrAux : Nat → Nat → Str
  | 0, _ => []
  | f + 1, n => if n < 10 then [decDigit n] else decStrAux f (n / 10) ++ [decDigit (n % 10)]

/-- Python `str(n)` for a natural number. -/
def decStr (n : Nat) : Str := decStrAux (n + 1) n

/-- Numeric value of a digit string (left fold), used to invert `decStr`. -/
def decVal (s : Str) : Nat := s.foldl (fun a c => a * 10 + (c.toNat - 48)) 0

/-- Python `int(s)` (digit strings only — the digits of a record count or
pagination label; anything else raises `ValueError`). -/
def pyInt (s : Str) : Except PyErr Nat :=
  if s ≠ [] ∧ s.all Char.isDigit then .ok (decVal s) else .error .valueError

/-- A Python number: `int`, or the `float` produced by true division
(kept as an exact fraction — it is only compared with `0` and fed to
`range`). -/
inductive PyNum where
  | int (n : Nat)
  | pyfloat (num den : Nat)
  deriving DecidableEq, Repr

/-- The `max_page` computation of `scrape_details` (ginfo.py lines
202-215): `0` without a `next` control or an empty record count,
`int(last_page)` for at most 10,000 records, and the float
`10000 / page_size` beyond the service ceiling. -/
def maxPageOf (record_number last_page : Str) (page_size : Nat) : Except PyErr PyNum :=
  if last_page = pyStr "Previous" then .ok (.int 0)
  else if record_number = [] then .ok (.int 0)
  else do
    let rn ← pyInt record_number
    if rn ≤ 10000 then do
      let lp ← pyInt last_page
      .ok (.int lp)
    else if page_size = 0 then .error .zeroDivisionError
    else .ok (.pyfloat 10000 page_size)

/-- `range(1, max_page)`: the pages `[1, ..., max_page - 1]` for an
`int` bound, `TypeError` for a `float` bound. -/
def pyRange1 (mp : PyNum) : Except PyErr (List Nat) :=
  match mp with
  | .int n => .ok (List.range' 1 (n - 1))
  | .pyfloat _ _ => .error .typeError

/-- First-page snapshot key `f'{start_date}-to-{end_date}_{page_offset+1}'`
(ginfo.py line 217). -/
def firstPageKey (start_date end_date : Str) (page_offset : Nat) : Str :=
  start_date ++ pyStr "-to-" ++ end_date ++ pyStr "_" ++ decStr (page_offset + 1)

/-- Later-page snapshot key `f'{start_date}_to_{end_date}_{page+1}'`
(ginfo.py line 225) — note the underscores. -/
def laterPageKey (start_date end_date : Str) (page : Nat) : Str :=
  start_date ++ pyStr "_to_" ++ end_date ++ pyStr "_" ++ decStr (page + 1)

/-- The record-count string: default `'0'`, else the element text with
`' Records'` and commas stripped. -/
def recordNumberOf (pv : PageView) : Str :=
  match pv.recordCountText with
  | none => pyStr "0"
  | some t => pyReplace (pyStr ",") [] (pyReplace (pyStr " Records") [] t)

/-- `max_page > 0` (a float produced by `10000 / page_size` with a
non-zero divisor is always positive). -/
def gt0Of (mp : PyNum) : Bool :=
  match mp with
  | .int n => decide (0 < n)
  | .pyfloat _ _ => true

/-- `Ginfo.scrape_details(dates)` (ginfo.py lines 181-227): read the
record count (default `'0'`, strip `' Records'` and commas) and the
last-page label (default `'Previous'`), compute `max_page`, store the
first page's links, then iterate `range(1, max_page)` rendering and
storing every further page.  Returns the keyed entries in insertion
order. -/
def scrape_details (render : Nat → PageView) (page_offset page_size : Nat)
    (start_date end_date : Str) : Except PyErr (List (Str × List LinkAttr)) :=
  let pv := render page_offset
  let last_page : Str := pv.lastPageText.getD (pyStr "Previous")
  match maxPageOf (recordNumberOf pv) last_page page_size with
  | .error e => .error e
  | .ok mp =>
    let first := [(firstPageKey start_date end_date page_offset, pv.links)]
    if gt0Of mp then
      match pyRange1 mp with
      | .error e => .error e
      | .ok pages =>
        .ok (first ++ pages.map (fun page =>
          (laterPageKey start_date end_date page, (render page).links)))
    else .ok first

theorem decDigit_toNat {n : Nat} (h : n < 10) : (decDigit n).toNat = 48 + n := by
  interval_cases n <;> decide

theorem decVal_append (xs : Str) (c : Char) :
    decVal (xs ++ [c]) = 10 * decVal xs + (c.toNat - 48) := by
  simp [decVal, List.foldl_append]
  omega

theorem decVal_decStrAux : ∀ (f n : Nat), n ≤ f → decVal (decStrAux (f + 1) n) = n := by
  intro f
  induction f with
  | zero =>
    intro n h
    have h0 : n = 0 := Nat.le_zero.mp h
    subst h0
    decide
  | succ f ih =>
    intro n h
    by_cases hlt : n < 10
    · rw [decStrAux, if_pos hlt]
      simp only [decVal, List.foldl]
      rw [decDigit_toNat hlt]
      omega
    · rw [decStrAux, if_neg hlt, decVal_append, ih (n / 10) (by omega),
        decDigit_toNat (by omega)]
      omega

theorem decStr_inj {a b : Nat} (h : decStr a = decStr b) : a = b := by
  have ha : decVal (decStr a) = a := decVal_decStrAux a a le_rfl
  have hb : decVal (decStr b) = b := decVal_decStrAux b b le_rfl
  rw [← ha, h, hb]

/-- Oracle for the C6 in-ceiling scenario: 9,999 records, 5 pages. -/
def renderOkW : Nat → PageView := fun _ =>
  { recordCountText := some (pyStr "9,999 Records"), lastPageText := some (pyStr "5"),
    links := [] }

/-- Oracle for the C6 over-ceiling scenario: 10,001 records. -/
def renderOverW : Nat → PageView := fun _ =>
  { recordCountText := some (pyStr "10,001 Records"), lastPageText := some (pyStr "101"),
    links := [] }

/-- C6: when the reported total is at most 10,000, `scrape_details`
iterates every page up to the reported last page (here 5 pages for a
last-page label of `5`); but when the total exceeds 10,000 the cap
`10000 / page_size` is a Python 3 **float**, so `range(1, max_page)`
raises `TypeError` and the method does **not** return normally — the
claimed silent cap never happens. -/
theorem c6_page_cap_type_error :
    scrape_details renderOkW 0 100 (pyStr "2020-01-01") (pyStr "2020-12-31") =
      .ok [(firstPageKey (pyStr "2020-01-01") (pyStr "2020-12-31") 0, []),
           (laterPageKey (pyStr "2020-01-01") (pyStr "2020-12-31") 1, []),
           (laterPageKey (pyStr "2020-01-01") (pyStr "2020-12-31") 2, []),
           (laterPageKey (pyStr "2020-01-01") (pyStr "2020-12-31") 3, []),
           (laterPageKey (pyStr "2020-01-01") (pyStr "2020-12-31") 4, [])] ∧
    scrape_details renderOverW 0 100 (pyStr "2020-01-01") (pyStr "2020-12-31") =
      .error .typeError :=
  ⟨by decide, by decide⟩

/-- Oracle for the C9 scenario: 120 records across 2 pages. -/
def renderTwoW : Nat → PageView := fun _ =>
  { recordCountText := some (pyStr "120 Records"), lastPageText := some (pyStr "2"),
    links := [] }

/-- C9 (counterexample): the key written for the second page is
`2020-01-01_to_2020-12-31_2` — with underscores around `to` — not the
claimed `2020-01-01-to-2020-12-31_2` form. -/
theorem c9_snapshot_key_counterexample :
    scrape_details renderTwoW 0 100 (pyStr "2020-01-01") (pyStr "2020-12-31") =
      .ok [(firstPageKey (pyStr "2020-01-01") (pyStr "2020-12-31") 0, []),
           (laterPageKey (pyStr "2020-01-01") (pyStr "2020-12-31") 1, [])] ∧
    laterPageKey (pyStr "2020-01-01") (pyStr "2020-12-31") 1 ≠
      pyStr "2020-01-01" ++ pyStr "-to-" ++ pyStr "2020-12-31" ++ pyStr "_" ++ decStr 2 :=
  ⟨by decide, by decide⟩

theorem key_split {s1 e1 d1 s2 e2 d2 mid : Str}
    (hs : s1.length = s2.length) (he : e1.length = e2.length)
    (h : s1 ++ mid ++ e1 ++ pyStr "_" ++ d1 = s2 ++ mid ++ e2 ++ pyStr "_" ++ d2) :
    s1 = s2 ∧ e1 = e2 ∧ d1 = d2 := by
  simp only [List.append_assoc] at h
  obtain ⟨h1, h2⟩ := List.append_inj h hs
  have h3 := List.append_cancel_left h2
  obtain ⟨h4, h5⟩ := List.append_inj h3 he
  exact ⟨h1, h4, List.append_cancel_left h5⟩

theorem key_mid_ne {s1 s2 x y : Str} (hs : s1.length = s2.length)
    (h : s1 ++ (pyStr "-to-" ++ x) = s2 ++ (pyStr "_to_" ++ y)) : False := by
  obtain ⟨h1, h2⟩ := List.append_inj h hs
  have hm1 : pyStr "-to-" = '-' :: 't' :: 'o' :: '-' :: [] := by decide
  have hm2 : pyStr "_to_" = '_' :: 't' :: 'o' :: '_' :: [] := by decide
  rw [hm1, hm2] at h2
  simp only [List.cons_append, List.cons.injEq] at h2
  exact absurd h2.1 (by decide)

/-- C9 (amended): the first page's key has the claimed
`{start}-to-{end}_{page}` form (1-based: `page_offset + 1`), but every
later page is keyed `{start}_to_{end}_{page+1}` — underscores around
`to`; both key families embed the window and the 1-based page number,
and for date strings of equal (fixed) length, keys from distinct windows
or pages never collide — also across the two families, which differ at
the separator. -/
theorem c9_snapshot_keys (render : Nat → PageView) (po ps : Nat) (sd ed : Str) :
    (∀ (result : List (Str × List LinkAttr)),
      scrape_details render po ps sd ed = .ok result →
      (∃ links, result.head? = some (firstPageKey sd ed po, links)) ∧
      (∀ x ∈ result.tail, ∃ page, 1 ≤ page ∧ x.1 = laterPageKey sd ed page)) ∧
    (∀ (s2 e2 : Str) (p2 : Nat), sd.length = s2.length → ed.length = e2.length →
      (firstPageKey sd ed po = firstPageKey s2 e2 p2 → sd = s2 ∧ ed = e2 ∧ po = p2) ∧
      (laterPageKey sd ed po = laterPageKey s2 e2 p2 → sd = s2 ∧ ed = e2 ∧ po = p2) ∧
      firstPageKey sd ed po ≠ laterPageKey s2 e2 p2) := by
  constructor
  · intro result hres
    simp only [scrape_details] at hres
    cases hmp : maxPageOf (recordNumberOf (render po))
        ((render po).lastPageText.getD (pyStr "Previous")) ps with
    | error e =>
      rw [hmp] at hres
      exact absurd hres (by simp)
    | ok mp =>
      rw [hmp] at hres
      simp only [] at hres
      cases mp with
      | int n =>
        by_cases hn : 0 < n
        · have hg : gt0Of (.int n) = true := by simp [gt0Of, hn]
          rw [hg] at hres
          simp only [if_true, pyRange1, Except.ok.injEq] at hres
          rw [← hres]
          constructor
          · exact ⟨(render po).links, rfl⟩
          · intro x hx
            simp only [List.singleton_append, List.tail_cons, List.mem_map] at hx
            obtain ⟨page, hpage, hxe⟩ := hx
            rw [List.mem_range'] at hpage
            obtain ⟨i, hi, hpe⟩ := hpage
            exact ⟨page, by omega, by rw [← hxe]⟩
        · have hg : gt0Of (.int n) = false := by simp [gt0Of]; omega
          rw [hg] at hres
          simp only [Bool.false_eq_true, if_false, Except.ok.injEq] at hres
          rw [← hres]
          refine ⟨⟨(render po).links, rfl⟩, ?_⟩
          intro x hx
          simp at hx
      | pyfloat num den =>
        have hg : gt0Of (.pyfloat num den) = true := rfl
        rw [hg] at hres
        simp only [if_true, pyRange1] at hres
        exact absurd hres (by simp)
  · intro s2 e2 p2 hs he
    refine ⟨?_, ?_, ?_⟩
    · intro h
      obtain ⟨h1, h2, h3⟩ := key_split hs he h
      exact ⟨h1, h2, by have := decStr_inj h3; omega⟩
    · intro h
      obtain ⟨h1, h2, h3⟩ := key_split hs he h
      exact ⟨h1, h2, by have := decStr_inj h3; omega⟩
    · intro h
      rw [firstPageKey, laterPageKey] at h
      simp only [List.append_assoc] at h
      exact key_mid_ne hs h

/-- C9 witness: the key-shape clause at the two-page scenario and the
non-collision clause across the two key families. -/
theorem c9_snapshot_keys_witness :
    (∃ links,
      ([(firstPageKey (pyStr "2020-01-01") (pyStr "2020-12-31") 0, ([] : List LinkAttr)),
        (laterPageKey (pyStr "2020-01-01") (pyStr "2020-12-31") 1, [])].head?) =
        some (firstPageKey (pyStr "2020-01-01") (pyStr "2020-12-31") 0, links)) ∧
    firstPageKey (pyStr "2020-01-01") (pyStr "2020-12-31") 0 ≠
      laterPageKey (pyStr "2020-01-01") (pyStr "2020-12-31") 0 := by
  constructor
  · exact ((c9_snapshot_keys renderTwoW 0 100 (pyStr "2020-01-01") (pyStr "2020-12-31")).1
      [(firstPageKey (pyStr "2020-01-01") (pyStr "2020-12-31") 0, []),
       (laterPageKey (pyStr "2020-01-01") (pyStr "2020-12-31") 1, [])] (by decide)).1
  · exact (((c9_snapshot_keys renderTwoW 0 100 (pyStr "2020-01-01") (pyStr "2020-12-31")).2
      (pyStr "2020-01-01") (pyStr "2020-12-31") 0 rfl rfl).2).2

/-! ## §6 ArchiveReconciler — `Ginfo.seal_bulk_data` (ginfo.py lines 587-647)

The on-disk tree is summarised by the xml and json stem sets produced by
`check_failed_files` and by the per-snapshot `[initial_date, final_date]`
pairs read from the `*.json` files in the details folder (`none` models a
json file without those keys, e.g. `info.json` itself, whose `KeyError`
the code swallows).  The re-serialization re-drive for failed stems is
not modelled: under the claim's "no new input" premise it leaves the
tree unchanged.  Nested dicts are association lists; `sorted` is
modelled by the (stable) insertion sort, extensionally equal to Python's
stable sort; `p_date` keys sort by `(year, month, day)` packed into one
number (a malformed date string would raise in `strptime`; here it gets
a default key, but the reconciler only sorts dates its own pipeline
wrote). -/

/-- The per-court entry of the `records` section: a record count plus
one `{'has_json': bool}` marker per case key (insertion order). -/
structure CourtRec where
  number_of_records : Nat
  cases : List (Str × Bool)
  deriving DecidableEq, Repr

/-- The `info.json` document. -/
structure ASummary where
  dates_covered : List (Str × Str)
  total_json_files : Nat
  total_cases : Nat
  records : List (Str × CourtRec)
  collection : Str
  nature_of_suit : Str
  time_created : Str
  deriving DecidableEq, Repr

/-- `dict.get(k)` on an association list. -/
def alGet {α : Type} : List (Str × α) → Str → Option α
  | [], _ => none
  | p :: t, k => if p.1 = k then some p.2 else alGet t k

/-- `dict[k] = v`: update in place if the key exists, else append. -/
def alSet {α : Type} (m : List (Str × α)) (k : Str) (v : α) : List (Str × α) :=
  if m.any (fun p => p.1 == k) then m.map (fun p => if p.1 == k then (k, v) else p)
  else m ++ [(k, v)]

/-- The fresh summary before `info.json` exists:
`info['dates_covered'], info['total_json_files'], info['total_cases'],
info['records'] = [], 0, 0, {}`. -/
def infoDefault : ASummary :=
  { dates_covered := [], total_json_files := 0, total_cases := 0, records := [],
    collection := [], nature_of_suit := [], time_created := [] }

/-- One iteration of the `for case_id in sorted(data['xml'])` loop
(ginfo.py lines 612-624): case keys already present in the per-court
record are skipped (their value `{'has_json': ...}` is a non-empty,
hence truthy, dict); unseen keys are appended and the three counters
incremented. -/
def recordStep (collection : Str) (jsonStems : List Str) (acc : ASummary) (case_id : Str) :
    ASummary :=
  let case_key := collection ++ pyStr "-" ++ case_id
  let case_abbr := (pySplit (pyStr "-") case_id).headD []
  let d := (alGet acc.records case_abbr).getD ⟨0, []⟩
  match alGet d.cases case_key with
  | some _ => acc
  | none =>
    let hj : Bool := decide (case_id ∈ jsonStems)
    { acc with
      total_json_files := acc.total_json_files + (if hj then 1 else 0),
      total_cases := acc.total_cases + 1,
      records := alSet acc.records case_abbr
        { number_of_records := d.number_of_records + 1,
          cases := d.cases ++ [(case_key, hj)] } }

/-- `p_date` sort key for a `YYYY-MM-DD` string, packed so that real
calendar dates compare chronologically. -/
def p_dateKey (s : Str) : Nat :=
  match pySplit (pyStr "-") s with
  | [y, m, d] => decVal y * 10000000000 + decVal m * 100000 + decVal d
  | _ => 0

/-- `sorted(dc, key=lambda x: p_date(x[0]))` comparison. -/
def dateLe (a b : Str × Str) : Prop := p_dateKey a.1 ≤ p_dateKey b.1

instance : DecidableRel dateLe := fun _ _ => Nat.decLe _ _

instance : IsTotal (Str × Str) dateLe := ⟨fun _ _ => Nat.le_total _ _⟩

instance : IsTrans (Str × Str) dateLe := ⟨fun _ _ _ => Nat.le_trans⟩

/-- One iteration of the dates loop (ginfo.py lines 628-637): append the
snapshot's date pair unless already present; files without the keys are
skipped (`except KeyError: pass`). -/
def datesStep (dc : List (Str × Str)) (o : Option (Str × Str)) : List (Str × Str) :=
  match o with
  | some dr => if dr ∈ dc then dc else dc ++ [dr]
  | none => dc

/-- `Ginfo.seal_bulk_data` (ginfo.py lines 587-647), from the point the
tree contents are fixed: load the existing summary (or the default),
rebuild the `records` section over the sorted xml stem set, accumulate
and sort the historical `dates_covered`, stamp provenance and the
creation time. -/
def seal_bulk_data (collection nature : Str) (xmlStems jsonStems : List Str)
    (snapshots : List (Option (Str × Str))) (prev : Option ASummary) (now : Str) :
    ASummary :=
  let info0 := prev.getD infoDefault
  let sortedIds := List.insertionSort (fun a b : Str => a ≤ b) xmlStems.eraseDups
  let info1 := sortedIds.foldl (recordStep collection jsonStems) info0
  let dc := snapshots.foldl datesStep info1.dates_covered
  { info1 with
    dates_covered := List.insertionSort dateLe dc,
    collection := collection,
    nature_of_suit := nature,
    time_created := now }

theorem alGet_mapSet_self {α : Type} (m : List (Str × α)) (k : Str) (v : α)
    (h : m.any (fun p => p.1 == k) = true) :
    alGet (m.map (fun p => if p.1 == k then (k, v) else p)) k = some v := by
  induction m with
  | nil => simp at h
  | cons p t ih =>
    by_cases hp : p.1 = k
    · simp [alGet, hp]
    · have hbe : (p.1 == k) = false := beq_eq_false_iff_ne.mpr hp
      have ht : t.any (fun p => p.1 == k) = true := by
        simp only [List.any_cons, Bool.or_eq_true, beq_iff_eq] at h
        rcases h with h1 | h1
        · exact absurd h1 hp
        · exact h1
      simp only [List.map_cons, hbe, Bool.false_eq_true, if_false, alGet, hp]
      exact ih ht

theorem alGet_mapSet_other {α : Type} (m : List (Str × α)) (k k' : Str) (v : α)
    (hne : k' ≠ k) :
    alGet (m.map (fun p => if p.1 == k then (k, v) else p)) k' = alGet m k' := by
  induction m with
  | nil => rfl
  | cons p t ih =>
    by_cases hp : p.1 = k
    · have hk' : ¬ (k = k') := fun hc => hne hc.symm
      have hp' : ¬ (p.1 = k') := by rw [hp]; exact hk'
      have hb : (p.1 == k) = true := by simpa using hp
      rw [List.map_cons, if_pos hb]
      simp only [alGet, hk', hp', if_false]
      exact ih
    · have hbe : (p.1 == k) = false := beq_eq_false_iff_ne.mpr hp
      simp only [List.map_cons, hbe, Bool.false_eq_true, if_false, alGet]
      by_cases hq : p.1 = k'
      · simp [hq]
      · simp only [hq, if_false]
        exact ih

theorem alGet_alSet_self {α : Type} (m : List (Str × α)) (k : Str) (v : α) :
    alGet (alSet m k v) k = some v := by
  rw [alSet]
  split
  case isTrue h => exact alGet_mapSet_self m k v h
  case isFalse h =>
    induction m with
    | nil => simp [alGet]
    | cons p t ih =>
      have hp : ¬ p.1 = k := by
        intro hc
        exact h (by simp [List.any_cons, hc])
      have ht : ¬ t.any (fun p => p.1 == k) = true := by
        intro hc
        exact h (by simp [List.any_cons, hc])
      simpa [alGet, hp] using ih ht

theorem alGet_append_single_other {α : Type} (m : List (Str × α)) (k k' : Str) (v : α)
    (hne : k' ≠ k) : alGet (m ++ [(k, v)]) k' = alGet m k' := by
  induction m with
  | nil =>
    have hk : ¬ (k = k') := fun hc => hne hc.symm
    simp [alGet, hk]
  | cons p t ih =>
    simp only [List.cons_append, alGet]
    by_cases hq : p.1 = k'
    · simp [hq]
    · simp only [hq, if_false]
      exact ih

theorem alGet_alSet_other {α : Type} (m : List (Str × α)) (k k' : Str) (v : α)
    (hne : k' ≠ k) : alGet (alSet m k v) k' = alGet m k' := by
  rw [alSet]
  split
  · exact alGet_mapSet_other m k k' v hne
  · exact alGet_append_single_other m k k' v hne

theorem alGet_append_some {α : Type} {m : List (Str × α)} {k : Str} {v : α}
    (h : alGet m k = some v) (l : List (Str × α)) : alGet (m ++ l) k = some v := by
  induction m with
  | nil => simp [alGet] at h
  | cons p t ih =>
    simp only [alGet] at h ⊢
    by_cases hq : p.1 = k
    · simpa [hq] using h
    · rw [if_neg hq] at h ⊢
      exact ih h

theorem alGet_append_none_self {α : Type} {m : List (Str × α)} {k : Str}
    (h : alGet m k = none) (v : α) : alGet (m ++ [(k, v)]) k = some v := by
  induction m with
  | nil => simp [alGet]
  | cons p t ih =>
    simp only [alGet] at h ⊢
    by_cases hq : p.1 = k
    · simp [hq] at h
    · rw [if_neg hq] at h ⊢
      exact ih h

/-- A case id is indexed in the `records` section: its court's entry
exists and holds the case key. -/
def keyPresent (recs : List (Str × CourtRec)) (collection case_id : Str) : Prop :=
  ∃ d b, alGet recs ((pySplit (pyStr "-") case_id).headD []) = some d ∧
    alGet d.cases (collection ++ pyStr "-" ++ case_id) = some b

theorem recordStep_skip {c : Str} {js : List Str} {acc : ASummary} {case_id : Str}
    {d0 : CourtRec} {b : Bool}
    (hd : alGet acc.records ((pySplit (pyStr "-") case_id).headD []) = some d0)
    (hb : alGet d0.cases (c ++ pyStr "-" ++ case_id) = some b) :
    recordStep c js acc case_id = acc := by
  simp only [recordStep, hd, Option.getD_some, hb]

theorem recordStep_add_none {c : Str} {js : List Str} {acc : ASummary} {case_id : Str}
    (hd : alGet acc.records ((pySplit (pyStr "-") case_id).headD []) = none) :
    recordStep c js acc case_id =
      { acc with
        total_json_files := acc.total_json_files +
          (if decide (case_id ∈ js) then 1 else 0),
        total_cases := acc.total_cases + 1,
        records := alSet acc.records ((pySplit (pyStr "-") case_id).headD [])
          { number_of_records := 1,
            cases := [(c ++ pyStr "-" ++ case_id, decide (case_id ∈ js))] } } := by
  simp only [recordStep, hd, Option.getD_none]
  rfl

theorem recordStep_add_some {c : Str} {js : List Str} {acc : ASummary} {case_id : Str}
    {d0 : CourtRec}
    (hd : alGet acc.records ((pySplit (pyStr "-") case_id).headD []) = some d0)
    (hb : alGet d0.cases (c ++ pyStr "-" ++ case_id) = none) :
    recordStep c js acc case_id =
      { acc with
        total_json_files := acc.total_json_files +
          (if decide (case_id ∈ js) then 1 else 0),
        total_cases := acc.total_cases + 1,
        records := alSet acc.records ((pySplit (pyStr "-") case_id).headD [])
          { number_of_records := d0.number_of_records + 1,
            cases := d0.cases ++ [(c ++ pyStr "-" ++ case_id, decide (case_id ∈ js))] } } := by
  simp only [recordStep, hd, Option.getD_some, hb]

theorem recordStep_present_self (c : Str) (js : List Str) (acc : ASummary) (case_id : Str) :
    keyPresent (recordStep c js acc case_id).records c case_id := by
  cases hd : alGet acc.records ((pySplit (pyStr "-") case_id).headD []) with
  | none =>
    rw [recordStep_add_none hd]
    refine ⟨_, decide (case_id ∈ js), alGet_alSet_self _ _ _, ?_⟩
    simp [alGet]
  | some d0 =>
    cases hb : alGet d0.cases (c ++ pyStr "-" ++ case_id) with
    | none =>
      rw [recordStep_add_some hd hb]
      exact ⟨_, decide (case_id ∈ js), alGet_alSet_self _ _ _, alGet_append_none_self hb _⟩
    | some b =>
      rw [recordStep_skip hd hb]
      exact ⟨d0, b, hd, hb⟩

theorem recordStep_present_mono {c : Str} {js : List Str} {acc : ASummary}
    {case_id : Str} (x : Str)
    (h : keyPresent acc.records c case_id) :
    keyPresent (recordStep c js acc x).records c case_id := by
  obtain ⟨d, b, hd, hb⟩ := h
  cases hdx : alGet acc.records ((pySplit (pyStr "-") x).headD []) with
  | none =>
    rw [recordStep_add_none hdx]
    have hne : ((pySplit (pyStr "-") case_id).headD []) ≠ ((pySplit (pyStr "-") x).headD []) := by
      intro hc
      rw [hc, hdx] at hd
      exact Option.noConfusion hd
    exact ⟨d, b, by rw [alGet_alSet_other _ _ _ _ hne]; exact hd, hb⟩
  | some d0 =>
    cases hbx : alGet d0.cases (c ++ pyStr "-" ++ x) with
    | some bx =>
      rw [recordStep_skip hdx hbx]
      exact ⟨d, b, hd, hb⟩
    | none =>
      rw [recordStep_add_some hdx hbx]
      by_cases habbr : ((pySplit (pyStr "-") case_id).headD []) = ((pySplit (pyStr "-") x).headD [])
      · have hdd : d = d0 := by
          rw [habbr, hdx] at hd
          exact (Option.some.inj hd).symm
        refine ⟨_, b, by rw [habbr]; exact alGet_alSet_self _ _ _, ?_⟩
        exact alGet_append_some (by rw [← hdd]; exact hb) _
      · exact ⟨d, b, by rw [alGet_alSet_other _ _ _ _ habbr]; exact hd, hb⟩

theorem fold_recordStep_present_mono {c : Str} {js : List Str} {case_id : Str} :
    ∀ (l : List Str) (acc : ASummary), keyPresent acc.records c case_id →
      keyPresent ((l.foldl (recordStep c js) acc).records) c case_id := by
  intro l
  induction l with
  | nil => intro acc h; exact h
  | cons x t ih =>
    intro acc h
    exact ih (recordStep c js acc x) (recordStep_present_mono x h)

theorem fold_recordStep_present {c : Str} {js : List Str} {case_id : Str} :
    ∀ (l : List Str) (acc : ASummary), case_id ∈ l →
      keyPresent ((l.foldl (recordStep c js) acc).records) c case_id := by
  intro l
  induction l with
  | nil => intro acc h; simp at h
  | cons x t ih =>
    intro acc h
    rcases List.mem_cons.mp h with h1 | h1
    · subst h1
      exact fold_recordStep_present_mono t _ (recordStep_present_self c js acc case_id)
    · exact ih _ h1

theorem fold_recordStep_id {c : Str} {js : List Str} :
    ∀ (l : List Str) (acc : ASummary), (∀ id ∈ l, keyPresent acc.records c id) →
      l.foldl (recordStep c js) acc = acc := by
  intro l
  induction l with
  | nil => intro acc _; rfl
  | cons x t ih =>
    intro acc h
    obtain ⟨d, b, hd, hb⟩ := h x (List.mem_cons_self x t)
    have hstep : recordStep c js acc x = acc := recordStep_skip hd hb
    simp only [List.foldl_cons, hstep]
    exact ih acc (fun id hid => h id (List.mem_cons_of_mem x hid))

theorem datesStep_mono {dc : List (Str × Str)} {dr : Str × Str} (o : Option (Str × Str))
    (h : dr ∈ dc) : dr ∈ datesStep dc o := by
  cases o with
  | none => exact h
  | some dr' =>
    rw [datesStep]
    split
    · exact h
    · exact List.mem_append_left _ h

theorem fold_datesStep_mono {dr : Str × Str} :
    ∀ (snaps : List (Option (Str × Str))) (dc : List (Str × Str)), dr ∈ dc →
      dr ∈ snaps.foldl datesStep dc := by
  intro snaps
  induction snaps with
  | nil => intro dc h; exact h
  | cons o t ih => intro dc h; exact ih _ (datesStep_mono o h)

theorem fold_datesStep_present {dr : Str × Str} :
    ∀ (snaps : List (Option (Str × Str))) (dc : List (Str × Str)), some dr ∈ snaps →
      dr ∈ snaps.foldl datesStep dc := by
  intro snaps
  induction snaps with
  | nil => intro dc h; simp at h
  | cons o t ih =>
    intro dc h
    rcases List.mem_cons.mp h with h1 | h1
    · subst h1
      simp only [List.foldl_cons]
      apply fold_datesStep_mono
      simp only [datesStep]
      split
      case isTrue h2 => exact h2
      case isFalse h2 => exact List.mem_append_right _ (List.mem_singleton.mpr rfl)
    · exact ih _ h1

theorem fold_datesStep_id :
    ∀ (snaps : List (Option (Str × Str))) (dc : List (Str × Str)),
      (∀ dr, some dr ∈ snaps → dr ∈ dc) →
      snaps.foldl datesStep dc = dc := by
  intro snaps
  induction snaps with
  | nil => intro dc _; rfl
  | cons o t ih =>
    intro dc h
    have hstep : datesStep dc o = dc := by
      cases o with
      | none => rfl
      | some dr =>
        simp only [datesStep]
        rw [if_pos (h dr (List.mem_cons_self _ _))]
    simp only [List.foldl_cons, hstep]
    exact ih dc (fun dr hdr => h dr (List.mem_cons_of_mem _ hdr))

theorem ASummary_ext {a b : ASummary}
    (h1 : a.dates_covered = b.dates_covered)
    (h2 : a.total_json_files = b.total_json_files)
    (h3 : a.total_cases = b.total_cases)
    (h4 : a.records = b.records)
    (h5 : a.collection = b.collection)
    (h6 : a.nature_of_suit = b.nature_of_suit)
    (h7 : a.time_created = b.time_created) : a = b := by
  cases a
  cases b
  simp_all

/-- C5: with the same on-disk tree and no new input, a second
`seal_bulk_data` run over the summary the first run wrote produces an
identical `ArchiveSummary` except for `time_created`: counters are
incremented only for case keys not already present in the records
section, and `dates_covered` gains no duplicate entries. -/
theorem c5_reconciler_idempotent (collection nature : Str) (xmlStems jsonStems : List Str)
    (snapshots : List (Option (Str × Str))) (prev : Option ASummary) (t1 t2 : Str) :
    seal_bulk_data collection nature xmlStems jsonStems snapshots
        (some (seal_bulk_data collection nature xmlStems jsonStems snapshots prev t1)) t2 =
      { seal_bulk_data collection nature xmlStems jsonStems snapshots prev t1 with
        time_created := t2 } := by
  set sortedIds := List.insertionSort (fun a b : Str => a ≤ b) xmlStems.eraseDups with hsort
  set info0 := prev.getD infoDefault with hinfo0
  set info1 := sortedIds.foldl (recordStep collection jsonStems) info0 with hinfo1
  set dc1 := snapshots.foldl datesStep info1.dates_covered with hdc1
  have hA : seal_bulk_data collection nature xmlStems jsonStems snapshots prev t1 =
      { info1 with
        dates_covered := List.insertionSort dateLe dc1,
        collection := collection, nature_of_suit := nature, time_created := t1 } := rfl
  set A := { info1 with
      dates_covered := List.insertionSort dateLe dc1,
      collection := collection, nature_of_suit := nature, time_created := t1 } with hAdef
  -- second run, records loop: every sorted stem is already present in A
  have hpresent : ∀ id ∈ sortedIds, keyPresent A.records collection id := by
    intro id hid
    have : keyPresent info1.records collection id :=
      fold_recordStep_present sortedIds info0 hid
    exact this
  have hfold2 : sortedIds.foldl (recordStep collection jsonStems) A = A :=
    fold_recordStep_id sortedIds A hpresent
  -- second run, dates loop: every snapshot pair is already covered
  have hdates2 : snapshots.foldl datesStep A.dates_covered = A.dates_covered := by
    apply fold_datesStep_id
    intro dr hdr
    show dr ∈ List.insertionSort dateLe dc1
    exact (List.mem_insertionSort dateLe).mpr (fold_datesStep_present snapshots _ hdr)
  have hsorted : List.insertionSort dateLe A.dates_covered = A.dates_covered := by
    show List.insertionSort dateLe (List.insertionSort dateLe dc1) =
      List.insertionSort dateLe dc1
    exact List.Sorted.insertionSort_eq (List.sorted_insertionSort dateLe dc1)
  rw [hA]
  show { (sortedIds.foldl (recordStep collection jsonStems) A) with
      dates_covered := List.insertionSort dateLe (snapshots.foldl datesStep
        ((sortedIds.foldl (recordStep collection jsonStems) A).dates_covered)),
      collection := collection, nature_of_suit := nature, time_created := t2 } =
    { A with time_created := t2 }
  rw [hfold2, hdates2, hsorted]

/-! ## §7 MetadataExtractor — `Ginfo.extract_metadata` /
`Ginfo.serialize_metadata` / `Ginfo._exception` (ginfo.py lines 368-485, 729-749)

The parsed metadata document (BeautifulSoup) is modelled by the tag
lookup functions a document supports: `mainTags` is `find_all` over the
whole tree, `relatedSec` is `find(id='id-{collection}-{access_id}')`
followed by `find_all` on the located element (`none` when the element
is absent — Python then raises `AttributeError` on `None.find_all`).
The `displaylabel` checks (done in the source by regex-searching the
serialized tag) are modelled as attribute lookups.  Path derivation and
the text/OCR collaborators are parameters (`xml_path`, `pdf_path`,
`json_path`, `text`, `page_count`, `error_output`, `ocrResult`).
`Except` errors carry the error-log rows written before the exception
escaped, so both persistence and logging are observable. -/

/-- One parsed element: its attributes and its text. -/
structure XmlEl where
  attrs : List (Str × Str)
  text : Str
  deriving DecidableEq, Repr

/-- A parsed metadata document. -/
structure XmlDoc where
  mainTags : Str → List XmlEl
  relatedSec : Str → Option (Str → List XmlEl)

/-- A value stored in the growing record dict. -/
inductive MVal where
  | s (v : Str)
  | party (m : List (Str × List Str))
  | b (v : Bool)
  | n (v : Nat)
  deriving DecidableEq, Repr

/-- The record under construction. -/
abbrev Data := List (Str × MVal)

/-- The string content of a scalar field (`court_type` and
`preferred_citation` are always strings). -/
def mvalStr : MVal → Str
  | .s v => v
  | _ => []

/-- `role.lower().replace('-', ' ').replace(' ', '_')`. -/
def normRole (s : Str) : Str :=
  ((s.map Char.toLower).map (fun c => if c = '-' then ' ' else c)).map
    (fun c => if c = ' ' then '_' else c)

/-- The `for inner_tag in tag_content` loop of `extract_metadata`
(ginfo.py lines 402-421), threading the record and the local `parties`
dict; a `party` element without a `role` or `fullname` attribute raises
`KeyError`, aborting with the record as mutated so far. -/
def extractLoop (tag key : Str) : Data → List (Str × List Str) → List XmlEl →
    Data × Option PyErr
  | data, _, [] => (data, none)
  | data, parties, el :: rest =>
    if alGet el.attrs (pyStr "displaylabel") = some (pyStr "PDF rendition") then
      extractLoop tag key (alSet data (pyStr "pdf_url") (.s el.text)) parties rest
    else if alGet el.attrs (pyStr "displaylabel") = some (pyStr "Content Detail") then
      extractLoop tag key (alSet data (pyStr "url") (.s el.text)) parties rest
    else if tag = pyStr "party" then
      match alGet el.attrs (pyStr "role") with
      | none => (data, some (.keyError (pyStr "role")))
      | some role =>
        match alGet el.attrs (pyStr "fullname") with
        | none => (data, some (.keyError (pyStr "fullname")))
        | some fullname =>
          let party_key := normRole role
          let party_value := (alGet parties party_key).getD []
          let newList :=
            if fullname ∈ party_value then party_value else party_value ++ [fullname]
          let parties' := alSet parties party_key newList
          extractLoop tag key (alSet data (pyStr "party") (.party parties')) parties' rest
    else
      extractLoop tag key (alSet data key (.s el.text)) parties rest

/-- `Ginfo.extract_metadata` (ginfo.py lines 368-421): locate the
scoping element (`related` uses the access-id element, `main` the whole
tree), collect the tag occurrences (only `preferred citation`-typed
`identifier`s), default the field to `''`, then run the occurrence
loop. -/
def extract_metadata (collection : Str) (doc : XmlDoc) (data : Data)
    (tag key access_id doc_type : Str) : Data × Option PyErr :=
  let elemsE : Except PyErr (Str → List XmlEl) :=
    if doc_type = pyStr "related" then
      match doc.relatedSec (pyStr "id-" ++ collection ++ pyStr "-" ++ access_id) with
      | some sec => .ok sec
      | none => .error .attributeError
    else if doc_type = pyStr "main" then .ok doc.mainTags
    else .error .attributeError
  match elemsE with
  | .error e => (data, some e)
  | .ok elems =>
    let tag_content :=
      if tag = pyStr "identifier" then
        (elems tag).filter
          (fun el => alGet el.attrs (pyStr "type") = some (pyStr "preferred citation"))
      else elems tag
    extractLoop tag key (alSet data key (.s [])) [] tag_content

/-- The `main` section of `Ginfo.tag_conversion` (ginfo.py lines 52-60),
in source order. -/
def mainTable : List (Str × Str) :=
  [(pyStr "docclass", pyStr "doc_class"), (pyStr "category", pyStr "category"),
   (pyStr "collectioncode", pyStr "collection"), (pyStr "courttype", pyStr "court_type"),
   (pyStr "courtcode", pyStr "court_code"), (pyStr "courtcircuit", pyStr "court_circuit"),
   (pyStr "courtstate", pyStr "court_state"), (pyStr "casenumber", pyStr "case_number"),
   (pyStr "caseoffice", pyStr "case_office"), (pyStr "branch", pyStr "branch"),
   (pyStr "cause", pyStr "cause"), (pyStr "naturesuit", pyStr "nature_of_suit"),
   (pyStr "naturesuitcode", pyStr "nature_of_suit_code"),
   (pyStr "casetype", pyStr "case_type"),
   (pyStr "recordcreationdate", pyStr "date_created"),
   (pyStr "recordchangedate", pyStr "date_changed"),
   (pyStr "dateingested", pyStr "date_ingested"),
   (pyStr "languageterm", pyStr "language_term"), (pyStr "party", pyStr "party"),
   (pyStr "identifier", pyStr "preferred_citation")]

/-- The `related` section of `Ginfo.tag_conversion` (ginfo.py lines
61-62). -/
def relatedTable : List (Str × Str) :=
  [(pyStr "url", pyStr "url"), (pyStr "accessid", pyStr "id"),
   (pyStr "state", pyStr "state"), (pyStr "title", pyStr "case_name"),
   (pyStr "dockettext", pyStr "docket_text"), (pyStr "dateissued", pyStr "date_issued"),
   (pyStr "partnumber", pyStr "part_number")]

/-- Run `extract_metadata` over a section's tag table, stopping at the
first exception with the partially mutated record. -/
def runTags (collection : Str) (doc : XmlDoc) (filename doc_type : Str) :
    List (Str × Str) → Data → Data × Option PyErr
  | [], data => (data, none)
  | (tag, key) :: rest, data =>
    match extract_metadata collection doc data tag key filename doc_type with
    | (data', none) => runTags collection doc filename doc_type rest data'
    | (data', some e) => (data', some e)

/-- The `for i in ['main', 'related']` double loop of
`serialize_metadata` (ginfo.py lines 434-437). -/
def runExtraction (collection : Str) (doc : XmlDoc) (filename : Str) :
    Data × Option PyErr :=
  match runTags collection doc filename (pyStr "main") mainTable [] with
  | (d, some e) => (d, some e)
  | (d, none) => runTags collection doc filename (pyStr "related") relatedTable d

/-- Python exception class name, as `_exception` would receive it. -/
def errName : PyErr → Str
  | .typeError => pyStr "TypeError"
  | .valueError => pyStr "ValueError"
  | .indexError => pyStr "IndexError"
  | .zeroDivisionError => pyStr "ZeroDivisionError"
  | .attributeError => pyStr "AttributeError"
  | .keyError _ => pyStr "KeyError"

/-- `Ginfo._exception(error_root, filename)` (ginfo.py lines 729-749):
rows appended to the exception log.  The only branch that calls
`_logger` requires `len(error_root) <= 1` (it then extends the root with
`sys.exc_info` data); every caller passes a 2-element
`[path, exception]` root, for which the function only prints — no row is
ever written. -/
def exceptionRows (error_root : List Str) : List (List Str) :=
  if error_root.length ≤ 1 then [error_root ++ [pyStr "NameError"]] else []

/-- What `serialize_metadata` leaves behind when it returns normally. -/
structure SerOut where
  jsonWritten : Option Data
  exceptionLog : List (List Str)
  processLog : List (List Str)
  deriving DecidableEq, Repr

/-- `Ginfo.serialize_metadata(xml_path)` (ginfo.py lines 423-485) with
the collaborator results as parameters (`text`/`error_output` from
`extract_text`, `page_count` from `pdfinfo`, `ocrResult` the assembled
OCR text or `none` for an OCR exception).  Errors carry the exception
rows written before the exception escaped. -/
def serialize_metadata (collection : Str) (doc : XmlDoc)
    (xml_path pdf_path json_path filename : Str) (text : Str) (page_count : Nat)
    (error_output : Str) (ocr_conversion : Bool) (ocrResult : Option Str) :
    Except (PyErr × List (List Str)) SerOut :=
  let ext := runExtraction collection doc filename
  let log1 : List (List Str) :=
    match ext.2 with
    | some e => exceptionRows [xml_path, errName e]
    | none => []
  let data2 := alSet (alSet ext.1 (pyStr "blocked") (.b false))
    (pyStr "page_count") (.n page_count)
  let log2 := log1 ++ (if error_output ≠ [] then exceptionRows [pdf_path, error_output] else [])
  match alGet data2 (pyStr "court_type") with
  | none => .error (.keyError (pyStr "court_type"), log2)
  | some ctv =>
    match alGet data2 (pyStr "preferred_citation") with
    | none => .error (.keyError (pyStr "preferred_citation"), log2)
    | some pcv =>
      let r := check_ocr text (mvalStr ctv) (mvalStr pcv)
      let withOcr : Str × List (List Str) :=
        if r.2.1 ∧ ocr_conversion then
          match ocrResult with
          | some otext => (header_remove otext r.2.2, log2)
          | none => (r.1, log2 ++ exceptionRows [xml_path, pyStr "OCRError"])
        else (r.1, log2)
      let data4 := alSet (alSet data2 (pyStr "ocr") (.b r.2.1))
        (pyStr "plain_text") (.s withOcr.1)
      let csv : List (List Str) :=
        if page_count = 0 then [[json_path, pyStr "Not processed"]]
        else if withOcr.1 = [] then [[json_path, pyStr "PDF is problematic"]]
        else []
      .ok { jsonWritten := some data4, exceptionLog := withOcr.2, processLog := csv }

/-- A metadata document whose `party` element lacks a `role` attribute;
all other main tags are absent and the related section is missing. -/
def docPartyNoRole : XmlDoc :=
  { mainTags := fun tag => if tag = pyStr "party" then [{ attrs := [], text := [] }] else [],
    relatedSec := fun _ => none }

/-- A well-formed-enough document whose related section is missing, so
the extraction pass fails only after `preferred_citation` was set. -/
def docRelatedMissing : XmlDoc :=
  { mainTags := fun _ => [], relatedSec := fun _ => none }

/-- C8: the claim fails on the code in both halves.  (1) `_exception`
writes a log row only when `len(error_root) <= 1`, but every caller
passes the 2-element `[path, exception]` root, so no row naming the
offending path is ever written.  (2) When the extraction exception hits
the `party` tag, `preferred_citation` is never set, and the later
`data['preferred_citation']` lookup raises an uncaught `KeyError`: the
record is **not** persisted and the batch worker dies.  (3) Even when the
exception strikes after those fields were set (missing related section),
the record is persisted but the log still receives no row. -/
theorem c8_extraction_exception_not_logged :
    (∀ a b : Str, exceptionRows [a, b] = []) ∧
    serialize_metadata (pyStr "USCOURTS") docPartyNoRole (pyStr "/d/1/h/xml/f1.xml")
        (pyStr "/d/1/h/pdf/f1.pdf") (pyStr "/d/1/h/json/f1.json") (pyStr "f1")
        (pyStr "some text") 2 [] true none =
      .error (.keyError (pyStr "preferred_citation"), []) ∧
    (serialize_metadata (pyStr "USCOURTS") docRelatedMissing (pyStr "/d/1/h/xml/f1.xml")
        (pyStr "/d/1/h/pdf/f1.pdf") (pyStr "/d/1/h/json/f1.json") (pyStr "f1")
        (pyStr "some text") 2 [] false none).map
        (fun o => (o.jsonWritten.isSome, o.exceptionLog)) = .ok (true, []) := by
  refine ⟨fun a b => rfl, by decide, by decide⟩
